import Mathlib

/-!
Verification development for the claudit usage-analytics core.

The Rust source under src-tauri/src is shallowly embedded:
machine integers (u64, u32) become Nat, i64 becomes Int, f64 arithmetic is
modelled exactly over the rationals, chrono UTC datetimes become a civil
calendar structure ordered through a seconds-since-year-zero function, and
JSON lines become an explicit Json inductive with a serde-style decoder.
Fallible operations return Option; the one place the Rust code can panic
(byte slicing in get_latest_response) is modelled with Except.
-/

namespace Claudit

/-! ### Decimal formatting, modelling the Rust integer Display and format width specifiers -/

/-- Character for a single decimal digit. -/
def natDigitChar (n : Nat) : Char := Char.ofNat (48 + n)

/-- Fuel-driven most-significant-first decimal digits of a natural number. -/
def natDigitsAux : Nat → Nat → List Char
  | 0, _ => []
  | fuel + 1, n =>
    if n < 10 then [natDigitChar n]
    else natDigitsAux fuel (n / 10) ++ [natDigitChar (n % 10)]

/-- Decimal digit list of a natural number, most significant first. -/
def natDigits (n : Nat) : List Char := natDigitsAux (n + 1) n

/-- Model of the Rust format specifier for an unsigned integer. -/
def natToString (n : Nat) : String := String.mk (natDigits n)

/-- Model of the Rust zero-padded two-wide format specifier. -/
def pad2 (n : Nat) : String :=
  if n < 10 then String.mk ['0', natDigitChar n] else natToString n

/-- Model of the chrono percent-Y year formatting: zero padded to four digits. -/
def pad4 (n : Nat) : String :=
  String.mk (List.replicate (4 - (natDigits n).length) '0' ++ natDigits n)

/-- Value of a most-significant-first decimal digit list; used to invert formatting. -/
def digitsToNat (cs : List Char) : Nat :=
  cs.foldl (fun a c => a * 10 + (c.toNat - 48)) 0

/-- Model of Rust str::to_lowercase, adequate for ASCII model names. -/
def rustToLowercase (s : String) : String := String.mk (s.data.map Char.toLower)

/-- Check that the first list is a prefix of the second. -/
def isPrefixList : List Char → List Char → Bool
  | [], _ => true
  | _ :: _, [] => false
  | a :: as, b :: bs => a = b && isPrefixList as bs

/-- Check that the first list occurs contiguously inside the second. -/
def isInfixList (pat : List Char) : List Char → Bool
  | [] => isPrefixList pat []
  | b :: bs => isPrefixList pat (b :: bs) || isInfixList pat bs

/-- Model of Rust str::contains for substring patterns. -/
def rustContains (hay pat : String) : Bool := isInfixList pat.data hay.data

/-! ### Civil UTC datetime, modelling chrono DateTime of Utc -/

/-- A chrono UTC datetime, in civil (proleptic Gregorian) fields at second
granularity. Ordering and subtraction of instants go through `toSec`. -/
structure DT where
  year : Nat
  month : Nat
  day : Nat
  hour : Nat
  minute : Nat
  second : Nat
deriving DecidableEq

/-- Gregorian leap year rule. -/
def isLeapYear (y : Nat) : Bool := (y % 4 == 0 && y % 100 != 0) || y % 400 == 0

/-- Days in a month of a given year. -/
def daysInMonth (y m : Nat) : Nat :=
  if m = 2 then (if isLeapYear y then 29 else 28)
  else if m = 4 ∨ m = 6 ∨ m = 9 ∨ m = 11 then 30
  else 31

/-- A civil datetime that chrono can actually represent. -/
def DT.Valid (t : DT) : Prop :=
  1 ≤ t.month ∧ t.month ≤ 12 ∧ 1 ≤ t.day ∧ t.day ≤ daysInMonth t.year t.month ∧
    t.hour ≤ 23 ∧ t.minute ≤ 59 ∧ t.second ≤ 59

instance (t : DT) : Decidable t.Valid := by
  unfold DT.Valid; infer_instance

/-- Cumulative days before a month in a common year. -/
def cumDays : Nat → Nat
  | 1 => 0 | 2 => 31 | 3 => 59 | 4 => 90 | 5 => 120 | 6 => 151
  | 7 => 181 | 8 => 212 | 9 => 243 | 10 => 273 | 11 => 304 | 12 => 334
  | _ => 0

/-- Number of leap years strictly before year `y` (counting from year 0). -/
def leapsBefore (y : Nat) : Nat := (y + 3) / 4 - (y + 99) / 100 + (y + 399) / 400

/-- Day number of the civil date of `t`, counted from 0000-01-01. -/
def dayNumber (t : DT) : Nat :=
  365 * t.year + leapsBefore t.year + cumDays t.month +
    (if 2 < t.month && isLeapYear t.year then 1 else 0) + (t.day - 1)

/-- Seconds elapsed since 0000-01-01T00:00:00Z; the instant of a valid civil
datetime. chrono comparison and subtraction of UTC datetimes correspond to
comparison and subtraction of this value. -/
def toSec (t : DT) : Nat :=
  86400 * dayNumber t + 3600 * t.hour + 60 * t.minute + t.second

/-! ### RFC3339 parsing, modelling chrono DateTime::parse_from_rfc3339 -/

/-- Value of a decimal digit character. -/
def charDigit (c : Char) : Option Nat :=
  if 48 ≤ c.toNat && c.toNat ≤ 57 then some (c.toNat - 48) else none

/-- Read exactly `n` decimal digits from the front of a character list. -/
def readNDigits : Nat → List Char → Option (Nat × List Char)
  | 0, cs => some (0, cs)
  | n + 1, [] => (fun _ => none) n
  | n + 1, c :: cs =>
    match charDigit c with
    | none => none
    | some d =>
      match readNDigits n cs with
      | none => none
      | some (v, rest) => some (d * 10 ^ n + v, rest)

/-- Require a specific character at the front. -/
def expectChar (c : Char) : List Char → Option (List Char)
  | [] => none
  | c0 :: cs => if c0 = c then some cs else none

/-- Drop at least one leading decimal digit (the ignored fractional seconds). -/
def skipDigits1 : List Char → Option (List Char)
  | [] => none
  | c :: cs =>
    match charDigit c with
    | none => none
    | some _ => some (skipDigits0 cs)
where
  /-- Drop the remaining leading decimal digits. -/
  skipDigits0 : List Char → List Char
    | [] => []
    | c :: cs => match charDigit c with
      | none => c :: cs
      | some _ => skipDigits0 cs

/-- Parse an RFC3339 numeric UTC offset, returning its value in seconds. -/
def parseOffset : List Char → Option (Int × List Char)
  | [] => none
  | c :: cs =>
    if c = 'Z' ∨ c = 'z' then some (0, cs)
    else if c = '+' ∨ c = '-' then
      match readNDigits 2 cs with
      | none => none
      | some (h, rest1) =>
        match expectChar ':' rest1 with
        | none => none
        | some rest2 =>
          match readNDigits 2 rest2 with
          | none => none
          | some (m, rest3) =>
            if h ≤ 23 ∧ m ≤ 59 then
              let mag : Int := (3600 * h + 60 * m : Nat)
              some (if c = '+' then mag else -mag, rest3)
            else none
    else none

/-- Previous civil date. -/
def prevDate (y m d : Nat) : Nat × Nat × Nat :=
  if 1 < d then (y, m, d - 1)
  else if 1 < m then (y, m - 1, daysInMonth y (m - 1))
  else (y - 1, 12, 31)

/-- Next civil date. -/
def nextDate (y m d : Nat) : Nat × Nat × Nat :=
  if d < daysInMonth y m then (y, m, d + 1)
  else if m < 12 then (y, m + 1, 1)
  else (y + 1, 1, 1)

/-- Renormalize a date with a possibly out-of-range second-of-day after the
offset was subtracted; the offset magnitude is below one day. -/
def applyOffset (y m d : Nat) (tod : Int) : DT :=
  if tod < 0 then
    let p := prevDate y m d
    let t := (tod + 86400).toNat
    ⟨p.1, p.2.1, p.2.2, t / 3600, t % 3600 / 60, t % 60⟩
  else if tod < 86400 then
    let t := tod.toNat
    ⟨y, m, d, t / 3600, t % 3600 / 60, t % 60⟩
  else
    let p := nextDate y m d
    let t := (tod - 86400).toNat
    ⟨p.1, p.2.1, p.2.2, t / 3600, t % 3600 / 60, t % 60⟩

/-- Model of chrono DateTime::parse_from_rfc3339 followed by conversion to
UTC, at second granularity (fractional seconds are accepted and ignored). -/
def parseRFC3339 (s : String) : Option DT :=
  match readNDigits 4 s.data with
  | none => none
  | some (y, r1) =>
    match expectChar '-' r1 with
    | none => none
    | some r2 =>
      match readNDigits 2 r2 with
      | none => none
      | some (mo, r3) =>
        match expectChar '-' r3 with
        | none => none
        | some r4 =>
          match readNDigits 2 r4 with
          | none => none
          | some (d, r5) =>
            match r5 with
            | [] => none
            | sep :: r6 =>
              if sep = 'T' ∨ sep = 't' ∨ sep = ' ' then
                match readNDigits 2 r6 with
                | none => none
                | some (h, r7) =>
                  match expectChar ':' r7 with
                  | none => none
                  | some r8 =>
                    match readNDigits 2 r8 with
                    | none => none
                    | some (mi, r9) =>
                      match expectChar ':' r9 with
                      | none => none
                      | some r10 =>
                        match readNDigits 2 r10 with
                        | none => none
                        | some (sec, r11) =>
                          let afterFrac : Option (List Char) :=
                            match r11 with
                            | '.' :: r12 => skipDigits1 r12
                            | other => some other
                          match afterFrac with
                          | none => none
                          | some r13 =>
                            match parseOffset r13 with
                            | none => none
                            | some (off, r14) =>
                              if r14 = [] ∧ 1 ≤ mo ∧ mo ≤ 12 ∧ 1 ≤ d ∧
                                  d ≤ daysInMonth y mo ∧ h ≤ 23 ∧ mi ≤ 59 ∧
                                  sec ≤ 59 then
                                some (applyOffset y mo d
                                  ((3600 * h + 60 * mi + sec : Nat) - off))
                              else none
              else none

/-! ### JSON values and the serde decode of the raw log entry types (types.rs) -/

/-- A parsed JSON value; integral numbers suffice for the fields the log
records use. -/
inductive Json where
  | null
  | bool (b : Bool)
  | num (n : Int)
  | str (s : String)
  | arr (elems : List Json)
  | obj (fields : List (String × Json))

/-- Look up an object field by name. -/
def jsonLookup : List (String × Json) → String → Option Json
  | [], _ => none
  | (k, v) :: rest, name => if k = name then some v else jsonLookup rest name

/-- Decode a JSON string, as serde does for a String field. -/
def decodeString : Json → Option String
  | Json.str s => some s
  | _ => none

/-- Decode a JSON number as u64, as serde does: a nonnegative integer below
two to the 64. -/
def decodeU64 : Json → Option Nat
  | Json.num n => if 0 ≤ n ∧ n < (2 : Int) ^ 64 then some n.toNat else none
  | _ => none

/-- Decode an optional struct field: absent or null yields none, a present
value must decode or the whole struct fails (serde semantics for Option
fields). The outer Option is the failure layer. -/
def decodeOptField (dec : Json → Option α) (fields : List (String × Json))
    (name : String) : Option (Option α) :=
  match jsonLookup fields name with
  | none => some none
  | some Json.null => some none
  | some v => (dec v).map some

/-- The UsageData struct of types.rs. -/
structure UsageData where
  input_tokens : Option Nat
  output_tokens : Option Nat
  cache_creation_input_tokens : Option Nat
  cache_read_input_tokens : Option Nat
deriving DecidableEq

/-- The untagged ContentBlock enum of types.rs. -/
inductive ContentBlock where
  | text (block_type : String) (text : String)
  | thinking (block_type : String) (thinking : String) (signature : Option String)
  | toolUse (block_type : String) (id : Option String) (name : Option String)
  | other (block_type : String)
deriving DecidableEq

/-- The MessageData struct of types.rs. -/
structure MessageData where
  role : Option String
  model : Option String
  usage : Option UsageData
  content : Option (List ContentBlock)
deriving DecidableEq

/-- The RawLogEntry struct of types.rs; field entry_type is serde-renamed
from the JSON key type, session_id from sessionId. -/
structure RawLogEntry where
  entry_type : Option String
  timestamp : Option String
  session_id : Option String
  message : Option MessageData
  uuid : Option String
  cwd : Option String
deriving DecidableEq

/-- Serde decode of UsageData: an object whose four token fields, when
present and non-null, must be u64 numbers. -/
def decodeUsageData : Json → Option UsageData
  | Json.obj fields =>
    match decodeOptField decodeU64 fields "input_tokens" with
    | none => none
    | some it =>
      match decodeOptField decodeU64 fields "output_tokens" with
      | none => none
      | some ot =>
        match decodeOptField decodeU64 fields "cache_creation_input_tokens" with
        | none => none
        | some cc =>
          match decodeOptField decodeU64 fields "cache_read_input_tokens" with
          | none => none
          | some cr => some ⟨it, ot, cc, cr⟩
  | _ => none

/-- The ToolUse variant attempt of the untagged ContentBlock decode, falling
back to the catch-all Other variant (which always succeeds once the type
field is a string). -/
def decodeToolUseOrOther (fields : List (String × Json)) (bt : String) :
    ContentBlock :=
  match decodeOptField decodeString fields "id" with
  | none => ContentBlock.other bt
  | some i =>
    match decodeOptField decodeString fields "name" with
    | none => ContentBlock.other bt
    | some n => ContentBlock.toolUse bt i n

/-- Serde decode of the untagged ContentBlock enum: the variants are tried
in declaration order (Text, Thinking, ToolUse, Other); each variant needs a
string type field under the JSON key type. -/
def decodeContentBlock : Json → Option ContentBlock
  | Json.obj fields =>
    match jsonLookup fields "type" with
    | some (Json.str bt) =>
      match jsonLookup fields "text" with
      | some (Json.str tx) => some (ContentBlock.text bt tx)
      | _ =>
        match jsonLookup fields "thinking" with
        | some (Json.str th) =>
          match decodeOptField decodeString fields "signature" with
          | some sig => some (ContentBlock.thinking bt th sig)
          | none => some (decodeToolUseOrOther fields bt)
        | _ => some (decodeToolUseOrOther fields bt)
    | _ => none
  | _ => none

/-- Serde decode of a content array. -/
def decodeContentList : List Json → Option (List ContentBlock)
  | [] => some []
  | j :: rest =>
    match decodeContentBlock j with
    | none => none
    | some b =>
      match decodeContentList rest with
      | none => none
      | some bs => some (b :: bs)

/-- Serde decode of MessageData. -/
def decodeMessageData : Json → Option MessageData
  | Json.obj fields =>
    match decodeOptField decodeString fields "role" with
    | none => none
    | some role =>
      match decodeOptField decodeString fields "model" with
      | none => none
      | some model =>
        match (match jsonLookup fields "usage" with
               | none => some none
               | some Json.null => some none
               | some v => (decodeUsageData v).map some : Option (Option UsageData)) with
        | none => none
        | some usage =>
          match (match jsonLookup fields "content" with
                 | none => some none
                 | some Json.null => some none
                 | some (Json.arr xs) => (decodeContentList xs).map some
                 | some _ => none : Option (Option (List ContentBlock))) with
          | none => none
          | some content => some ⟨role, model, usage, content⟩
  | _ => none

/-- Serde decode of RawLogEntry, the top level shape of one log line. -/
def decodeRawLogEntry : Json → Option RawLogEntry
  | Json.obj fields =>
    match decodeOptField decodeString fields "type" with
    | none => none
    | some et =>
      match decodeOptField decodeString fields "timestamp" with
      | none => none
      | some ts =>
        match decodeOptField decodeString fields "sessionId" with
        | none => none
        | some sid =>
          match (match jsonLookup fields "message" with
                 | none => some none
                 | some Json.null => some none
                 | some v => (decodeMessageData v).map some :
                   Option (Option MessageData)) with
          | none => none
          | some msg =>
            match decodeOptField decodeString fields "uuid" with
            | none => none
            | some uu =>
              match decodeOptField decodeString fields "cwd" with
              | none => none
              | some cw => some ⟨et, ts, sid, msg, uu, cw⟩
  | _ => none

/-! ### The parsed usage entry and the record parser (usage.rs parse_line) -/

/-- The UsageEntry struct of types.rs. -/
structure UsageEntry where
  timestamp : DT
  session_id : String
  model : String
  input_tokens : Nat
  output_tokens : Nat
  cache_creation_tokens : Nat
  cache_read_tokens : Nat
  uuid : String
  project : String
deriving DecidableEq

/-- The UsageEntry method total_tokens. -/
def UsageEntry.total_tokens (e : UsageEntry) : Nat :=
  e.input_tokens + e.output_tokens

/-- UsageReader::parse_line over an already JSON-parsed line. -/
def parseLine (j : Json) (project : String) : Option UsageEntry :=
  match decodeRawLogEntry j with
  | none => none
  | some raw =>
    if raw.entry_type ≠ some "assistant" then none
    else
      match raw.message with
      | none => none
      | some message =>
        if message.role ≠ some "assistant" then none
        else
          match message.usage with
          | none => none
          | some usage =>
            match message.model with
            | none => none
            | some model =>
              match raw.timestamp with
              | none => none
              | some ts =>
                match parseRFC3339 ts with
                | none => none
                | some timestamp =>
                  some { timestamp := timestamp
                         session_id := raw.session_id.getD ""
                         model := model
                         input_tokens := usage.input_tokens.getD 0
                         output_tokens := usage.output_tokens.getD 0
                         cache_creation_tokens :=
                           usage.cache_creation_input_tokens.getD 0
                         cache_read_tokens :=
                           usage.cache_read_input_tokens.getD 0
                         uuid := raw.uuid.getD ""
                         project := project }

/-! ### The deduplicating entry stream (usage.rs read_entries) -/

/-- A scanned file: its project identifier and its lines; a line that is
empty or not valid JSON is represented by none. -/
abbrev LogFile := String × List (Option Json)

/-- The age cutoff instant, when a day window is given. -/
def cutoffOf (days : Option Nat) (now : DT) : Option Int :=
  days.map (fun d => (toSec now : Int) - 86400 * d)

/-- The date filter of read_entries: a record is kept unless its timestamp
is strictly before the cutoff. -/
def passesCutoff (c : Option Int) (e : UsageEntry) : Bool :=
  match c with
  | none => true
  | some cd => if (toSec e.timestamp : Int) < cd then false else true

/-- The record, if any, that one line of one file contributes after parsing
and the date filter, before deduplication. -/
def produces (c : Option Int) (x : String × Option Json) : Option UsageEntry :=
  match x.2 with
  | none => none
  | some j =>
    match parseLine j x.1 with
    | none => none
    | some e => if passesCutoff c e then some e else none

/-- One step of the read_entries loop: the state is the seen uuid set and
the accumulated entries in stream order. -/
def dedupStep (c : Option Int) (st : List String × List UsageEntry)
    (x : String × Option Json) : List String × List UsageEntry :=
  match produces c x with
  | none => st
  | some e =>
    if e.uuid = "" then (st.1, st.2 ++ [e])
    else if e.uuid ∈ st.1 then st
    else (e.uuid :: st.1, st.2 ++ [e])

/-- The per-line stream of all files in scan order. -/
def streamOf (files : List LogFile) : List (String × Option Json) :=
  (files.map (fun f => f.2.map (fun l => (f.1, l)))).flatten

/-- Ascending timestamp order used by the final sort of read_entries. -/
def tsLE (a b : UsageEntry) : Prop := toSec a.timestamp ≤ toSec b.timestamp

instance : DecidableRel tsLE := fun _ _ => Nat.decLe _ _

instance : IsTotal UsageEntry tsLE := ⟨fun _ _ => Nat.le_total _ _⟩

instance : IsTrans UsageEntry tsLE := ⟨fun _ _ _ => Nat.le_trans⟩

/-- UsageReader::read_entries: parse every line of every file, drop records
older than the optional day window, deduplicate by non-empty uuid across
the whole scan, and sort ascending by timestamp. -/
def readEntries (files : List LogFile) (days : Option Nat) (now : DT) :
    List UsageEntry :=
  List.insertionSort tsLE
    (((streamOf files).foldl (dedupStep (cutoffOf days now)) ([], [])).2)

/-! ### Cost model (analytics.rs get_model_costs and pricing.rs) -/

/-- The TokenCosts struct of types.rs; the f64 rates are modelled exactly
as rationals. -/
structure TokenCosts where
  input : ℚ
  output : ℚ
  cache_read : ℚ
  cache_write : ℚ
deriving DecidableEq

/-- The Default impl of TokenCosts (sonnet-like pricing). -/
def TokenCosts.default : TokenCosts :=
  ⟨3.0, 15.0, 0.30, 3.75⟩

/-- The get_model_costs function private to analytics.rs: generic family
keywords only, first match wins. This is the schedule function the
aggregation engine and the chart aggregator invoke. -/
def analyticsGetModelCosts (model : String) : TokenCosts :=
  let model_lower := rustToLowercase model
  if rustContains model_lower "opus" then ⟨15.0, 75.0, 1.50, 18.75⟩
  else if rustContains model_lower "sonnet" then ⟨3.0, 15.0, 0.30, 3.75⟩
  else if rustContains model_lower "haiku" then ⟨0.25, 1.25, 0.025, 0.30⟩
  else TokenCosts.default

/-- The get_model_costs function of pricing.rs: dated sub-variant keywords
are checked before the generic family keywords, default is sonnet pricing. -/
def pricingGetModelCosts (model : String) : TokenCosts :=
  let model_lower := rustToLowercase model
  if rustContains model_lower "opus-4-5" || rustContains model_lower "opus-4.5" then
    ⟨5.0, 25.0, 0.50, 6.25⟩
  else if rustContains model_lower "opus" then
    ⟨15.0, 75.0, 1.50, 18.75⟩
  else if rustContains model_lower "haiku-4-5" || rustContains model_lower "haiku-4.5" then
    ⟨1.0, 5.0, 0.10, 1.25⟩
  else if rustContains model_lower "haiku-3-5" || rustContains model_lower "haiku-3.5" then
    ⟨0.80, 4.0, 0.08, 1.0⟩
  else if rustContains model_lower "haiku" then
    ⟨0.25, 1.25, 0.03, 0.30⟩
  else
    ⟨3.0, 15.0, 0.30, 3.75⟩

/-- calculate_entry_cost of analytics.rs, the cost function used by both
the aggregation engine and the chart aggregator. -/
def calculateEntryCost (e : UsageEntry) : ℚ :=
  let costs := analyticsGetModelCosts e.model
  let per_million : ℚ := 1000000
  let input_cost := ((e.input_tokens : ℚ) / per_million) * costs.input
  let output_cost := ((e.output_tokens : ℚ) / per_million) * costs.output
  let cache_read_cost := ((e.cache_read_tokens : ℚ) / per_million) * costs.cache_read
  let cache_write_cost := ((e.cache_creation_tokens : ℚ) / per_million) * costs.cache_write
  input_cost + output_cost + cache_read_cost + cache_write_cost

/-- calculate_cost of pricing.rs. -/
def pricingCalculateCost (model : String) (input_tokens output_tokens
    cache_creation_tokens cache_read_tokens : Nat) : ℚ :=
  let costs := pricingGetModelCosts model
  let per_million : ℚ := 1000000
  let input_cost := ((input_tokens : ℚ) / per_million) * costs.input
  let output_cost := ((output_tokens : ℚ) / per_million) * costs.output
  let cache_read_cost := ((cache_read_tokens : ℚ) / per_million) * costs.cache_read
  let cache_write_cost := ((cache_creation_tokens : ℚ) / per_million) * costs.cache_write
  input_cost + output_cost + cache_read_cost + cache_write_cost

/-! ### Session block key and the aggregation engine (analytics.rs) -/

/-- get_session_block_key: the 5 hour block key string of a timestamp. -/
def getSessionBlockKey (t : DT) : String :=
  natToString t.year ++ "-" ++ pad2 t.month ++ "-" ++ pad2 t.day ++ "-" ++
    natToString (t.hour / 5)

/-- The ModelStats struct of types.rs. -/
structure ModelStats where
  input_tokens : Nat
  output_tokens : Nat
  cache_creation_tokens : Nat
  cache_read_tokens : Nat
  cost : ℚ
  message_count : Nat
deriving DecidableEq

/-- The Default impl of ModelStats. -/
def ModelStats.default : ModelStats := ⟨0, 0, 0, 0, 0, 0⟩

/-- The ProjectStats struct of types.rs. -/
structure ProjectStats where
  name : String
  input_tokens : Nat
  output_tokens : Nat
  cost : ℚ
  message_count : Nat
deriving DecidableEq

/-- The AnalyticsStats struct of types.rs; the hash maps are modelled as
association lists in insertion order. -/
structure AnalyticsStats where
  total_input_tokens : Nat
  total_output_tokens : Nat
  total_cache_creation_tokens : Nat
  total_cache_read_tokens : Nat
  today_input_tokens : Nat
  today_output_tokens : Nat
  today_cost : ℚ
  today_messages : Nat
  current_session_tokens : Nat
  current_session_cost : ℚ
  today_session_count : Nat
  total_session_count : Nat
  tokens_per_minute : ℚ
  cost_per_hour : ℚ
  total_cost : ℚ
  by_model : List (String × ModelStats)
  by_project : List (String × ProjectStats)
  today_messages_count : Nat
  total_messages_count : Nat
  last_updated : Option DT
deriving DecidableEq

/-- The Default impl of AnalyticsStats. -/
def AnalyticsStats.default : AnalyticsStats :=
  ⟨0, 0, 0, 0, 0, 0, 0, 0, 0, 0, 0, 0, 0, 0, 0, [], [], 0, 0, none⟩

/-- Model of the HashMap entry-or-insert-then-mutate idiom: the first bound
occurrence of the key is updated in place, a missing key is appended with
the mutation applied to the supplied initial value. -/
def updateAssoc {K V : Type} [DecidableEq K] (k : K) (d : V) (f : V → V) :
    List (K × V) → List (K × V)
  | [] => [(k, f d)]
  | (k0, v) :: rest =>
    if k0 = k then (k0, f v) :: rest else (k0, v) :: updateAssoc k d f rest

/-- Model of HashSet insert on a set represented as a duplicate-free list. -/
def insertSet (s : List String) (k : String) : List String :=
  if k ∈ s then s else k :: s

/-- Loop state of calculate_stats: the stats being accumulated, the two
session block sets, and the three burn rate accumulators. -/
structure StatsState where
  stats : AnalyticsStats
  session_blocks : List String
  today_session_blocks : List String
  burn_window_tokens : Nat
  burn_window_cost : ℚ
  burn_window_minutes : Int
deriving DecidableEq

/-- Initial loop state of calculate_stats. -/
def initStatsState : StatsState := ⟨AnalyticsStats.default, [], [], 0, 0, 0⟩

/-- The per-entry body of the calculate_stats loop. The three instants
derived from now (start of today, current session key, burn window start)
are captured once at pass start and passed in. -/
def statsStep (todayStart : Int) (currentKey : String) (burnStart : Int)
    (nowSec : Int) (st : StatsState) (e : UsageEntry) : StatsState :=
  let cost := calculateEntryCost e
  let is_today := todayStart ≤ (toSec e.timestamp : Int)
  let session_key := getSessionBlockKey e.timestamp
  let is_current_session := session_key = currentKey
  let s0 := st.stats
  let s1 := { s0 with
    total_input_tokens := s0.total_input_tokens + e.input_tokens
    total_output_tokens := s0.total_output_tokens + e.output_tokens
    total_cache_creation_tokens :=
      s0.total_cache_creation_tokens + e.cache_creation_tokens
    total_cache_read_tokens := s0.total_cache_read_tokens + e.cache_read_tokens
    total_cost := s0.total_cost + cost
    total_messages_count := s0.total_messages_count + 1 }
  let s2 :=
    if is_today then
      { s1 with
        today_input_tokens := s1.today_input_tokens + e.input_tokens
        today_output_tokens := s1.today_output_tokens + e.output_tokens
        today_cost := s1.today_cost + cost
        today_messages := s1.today_messages + 1
        today_messages_count := s1.today_messages_count + 1 }
    else s1
  let today_session_blocks :=
    if is_today then insertSet st.today_session_blocks session_key
    else st.today_session_blocks
  let s3 :=
    if is_current_session then
      { s2 with
        current_session_tokens := s2.current_session_tokens + e.total_tokens
        current_session_cost := s2.current_session_cost + cost }
    else s2
  let session_blocks := insertSet st.session_blocks session_key
  let in_burn_window := burnStart ≤ (toSec e.timestamp : Int)
  let burn_window_tokens :=
    if in_burn_window then st.burn_window_tokens + e.total_tokens
    else st.burn_window_tokens
  let burn_window_cost :=
    if in_burn_window then st.burn_window_cost + cost else st.burn_window_cost
  let burn_window_minutes :=
    if in_burn_window then
      if st.burn_window_minutes = 0 then
        max (Int.tdiv (nowSec - toSec e.timestamp) 60) 1
      else st.burn_window_minutes
    else st.burn_window_minutes
  let s4 := { s3 with
    by_model := updateAssoc e.model ModelStats.default
      (fun m => { m with
        input_tokens := m.input_tokens + e.input_tokens
        output_tokens := m.output_tokens + e.output_tokens
        cache_creation_tokens := m.cache_creation_tokens + e.cache_creation_tokens
        cache_read_tokens := m.cache_read_tokens + e.cache_read_tokens
        cost := m.cost + cost
        message_count := m.message_count + 1 }) s3.by_model }
  let s5 := { s4 with
    by_project := updateAssoc e.project
      ⟨e.project, 0, 0, 0, 0⟩
      (fun p => { p with
        input_tokens := p.input_tokens + e.input_tokens
        output_tokens := p.output_tokens + e.output_tokens
        cost := p.cost + cost
        message_count := p.message_count + 1 }) s4.by_project }
  { stats := s5
    session_blocks := session_blocks
    today_session_blocks := today_session_blocks
    burn_window_tokens := burn_window_tokens
    burn_window_cost := burn_window_cost
    burn_window_minutes := burn_window_minutes }

/-- AnalyticsService::calculate_stats. -/
def calculateStats (entries : List UsageEntry) (now : DT) : AnalyticsStats :=
  let todayStart : Int := (86400 * dayNumber now : Nat)
  let currentKey := getSessionBlockKey now
  let burnStart : Int := (toSec now : Int) - 1800
  let st := entries.foldl
    (statsStep todayStart currentKey burnStart (toSec now)) initStatsState
  let s := { st.stats with
    total_session_count := st.session_blocks.length
    today_session_count := st.today_session_blocks.length
    last_updated := some now }
  if 0 < st.burn_window_minutes then
    { s with
      tokens_per_minute :=
        (st.burn_window_tokens : ℚ) / (st.burn_window_minutes : ℚ)
      cost_per_hour :=
        (st.burn_window_cost / (st.burn_window_minutes : ℚ)) * 60 }
  else s

/-! ### The stats cache (analytics.rs needs_refresh, get_stats, refresh_stats) -/

/-- The mutable state of AnalyticsService: the cached stats and the last
refresh instant. -/
structure ServiceState where
  cached_stats : Option AnalyticsStats
  last_refresh : Option DT
deriving DecidableEq

/-- AnalyticsService::needs_refresh: stale when never computed or when more
than 30 seconds have elapsed. -/
def needsRefresh (st : ServiceState) (now : DT) : Bool :=
  match st.last_refresh with
  | none => true
  | some t => 30 < (toSec now : Int) - (toSec t : Int)

/-- AnalyticsService::refresh_stats: recompute unconditionally, overwrite
the cache and the last refresh instant, and return the new value. -/
def refreshStats (entries : List UsageEntry) (now : DT) :
    AnalyticsStats × ServiceState :=
  let stats := calculateStats entries now
  (stats, ⟨some stats, some now⟩)

/-- AnalyticsService::get_stats: serve the cached value when fresh and
present, otherwise refresh. -/
def getStats (st : ServiceState) (entries : List UsageEntry) (now : DT) :
    AnalyticsStats × ServiceState :=
  if needsRefresh st now then refreshStats entries now
  else
    match st.cached_stats with
    | some s => (s, st)
    | none => refreshStats entries now

/-! ### The chart aggregator (analytics.rs get_chart_data) -/

/-- The DailyStats struct of types.rs. -/
structure DailyStats where
  date : String
  input_tokens : Nat
  output_tokens : Nat
  cost : ℚ
  messages : Nat
deriving DecidableEq

/-- The HourlyStats struct of types.rs. -/
structure HourlyStats where
  hour : Nat
  tokens : Nat
  messages : Nat
deriving DecidableEq

/-- The ModelChartData struct of types.rs. -/
structure ModelChartData where
  name : String
  tokens : Nat
  cost : ℚ
deriving DecidableEq

/-- The ProjectChartData struct of types.rs. -/
structure ProjectChartData where
  name : String
  tokens : Nat
  cost : ℚ
deriving DecidableEq

/-- The ChartData struct of types.rs. -/
structure ChartData where
  daily : List DailyStats
  hourly : List HourlyStats
  by_model : List ModelChartData
  by_project : List ProjectChartData
deriving DecidableEq

/-- The chrono percent-Y-m-d date key used for the daily buckets. -/
def formatYMD (t : DT) : String :=
  pad4 t.year ++ "-" ++ pad2 t.month ++ "-" ++ pad2 t.day

/-- Ascending date string order of the daily slice. -/
def dailyLE (a b : DailyStats) : Prop := a.date ≤ b.date

instance : DecidableRel dailyLE := fun a b =>
  inferInstanceAs (Decidable (a.date ≤ b.date))

instance : IsTotal DailyStats dailyLE := ⟨fun a b => le_total a.date b.date⟩

instance : IsTrans DailyStats dailyLE := ⟨fun _ _ _ => le_trans⟩

/-- Ascending hour order of the hourly slice. -/
def hourlyLE (a b : HourlyStats) : Prop := a.hour ≤ b.hour

instance : DecidableRel hourlyLE := fun _ _ => Nat.decLe _ _

instance : IsTotal HourlyStats hourlyLE := ⟨fun _ _ => Nat.le_total _ _⟩

instance : IsTrans HourlyStats hourlyLE := ⟨fun _ _ _ => Nat.le_trans⟩

/-- Descending token order of the model slice. -/
def modelDesc (a b : ModelChartData) : Prop := b.tokens ≤ a.tokens

instance : DecidableRel modelDesc := fun _ _ => Nat.decLe _ _

instance : IsTotal ModelChartData modelDesc := ⟨fun _ _ => Nat.le_total _ _⟩

instance : IsTrans ModelChartData modelDesc :=
  ⟨fun _ _ _ h1 h2 => Nat.le_trans h2 h1⟩

/-- Descending token order of the project slice. -/
def projectDesc (a b : ProjectChartData) : Prop := b.tokens ≤ a.tokens

instance : DecidableRel projectDesc := fun _ _ => Nat.decLe _ _

instance : IsTotal ProjectChartData projectDesc := ⟨fun _ _ => Nat.le_total _ _⟩

instance : IsTrans ProjectChartData projectDesc :=
  ⟨fun _ _ _ h1 h2 => Nat.le_trans h2 h1⟩

/-- The daily grouping fold of get_chart_data. -/
def dailyMapOf (entries : List UsageEntry) : List (String × DailyStats) :=
  entries.foldl
    (fun m e =>
      let date_key := formatYMD e.timestamp
      updateAssoc date_key ⟨date_key, 0, 0, 0, 0⟩
        (fun d => { d with
          input_tokens := d.input_tokens + e.input_tokens
          output_tokens := d.output_tokens + e.output_tokens
          cost := d.cost + calculateEntryCost e
          messages := d.messages + 1 }) m)
    []

/-- The hourly grouping fold of get_chart_data. -/
def hourlyMapOf (entries : List UsageEntry) : List (Nat × HourlyStats) :=
  entries.foldl
    (fun m e =>
      let hour := e.timestamp.hour
      updateAssoc hour ⟨hour, 0, 0⟩
        (fun h => { h with
          tokens := h.tokens + e.total_tokens
          messages := h.messages + 1 }) m)
    []

/-- The per-model grouping fold of get_chart_data. -/
def modelMapOf (entries : List UsageEntry) : List (String × (Nat × ℚ)) :=
  entries.foldl
    (fun m e =>
      updateAssoc e.model (0, 0)
        (fun p => (p.1 + e.total_tokens, p.2 + calculateEntryCost e)) m)
    []

/-- The per-project grouping fold of get_chart_data. -/
def projectMapOf (entries : List UsageEntry) : List (String × (Nat × ℚ)) :=
  entries.foldl
    (fun m e =>
      updateAssoc e.project (0, 0)
        (fun p => (p.1 + e.total_tokens, p.2 + calculateEntryCost e)) m)
    []

/-- AnalyticsService::get_chart_data over an already-read entry list: the
four independent groupings and their sorts. -/
def getChartData (entries : List UsageEntry) : ChartData :=
  { daily := List.insertionSort dailyLE ((dailyMapOf entries).map (·.2))
    hourly := List.insertionSort hourlyLE ((hourlyMapOf entries).map (·.2))
    by_model := List.insertionSort modelDesc
      ((modelMapOf entries).map (fun kv => ⟨kv.1, kv.2.1, kv.2.2⟩))
    by_project := List.insertionSort projectDesc
      ((projectMapOf entries).map (fun kv => ⟨kv.1, kv.2.1, kv.2.2⟩)) }

/-! ### Latest response excerpt (usage.rs get_latest_response) -/

/-- ContentBlock::as_text. -/
def contentText : ContentBlock → Option String
  | ContentBlock.text bt tx => if bt = "text" then some tx else none
  | _ => none

/-- Model of Vec join with a single space separator. -/
def joinSpace : List String → String
  | [] => ""
  | [s] => s
  | s :: rest => s ++ " " ++ joinSpace rest

/-- Rust char::is_whitespace, restricted to the ASCII whitespace forms that
occur in log text. -/
def isWhitespaceChar (c : Char) : Bool :=
  c = ' ' || c = '\t' || c = '\n' || c = '\r'

/-- Model of Rust str::trim: drop whitespace from both ends. -/
def rustTrim (s : String) : String :=
  String.mk (((s.data.dropWhile isWhitespaceChar).reverse.dropWhile
    isWhitespaceChar).reverse)

/-- Model of Rust str::len: the UTF-8 byte length. -/
def utf8Length (s : String) : Nat := s.utf8ByteSize

/-- Whether byte index `n` falls on a character boundary of the text. -/
def isCharBoundary : List Char → Nat → Bool
  | _, 0 => true
  | [], _ + 1 => false
  | c :: rest, n + 1 =>
    if c.utf8Size ≤ n + 1 then isCharBoundary rest (n + 1 - c.utf8Size)
    else false

/-- The characters of the first `n` bytes of the text; exact when `n` is a
character boundary. -/
def takeBytes : List Char → Nat → List Char
  | [], _ => []
  | c :: rest, n => if c.utf8Size ≤ n then c :: takeBytes rest (n - c.utf8Size) else []

/-- The truncation step of get_latest_response: a byte slice at max_chars
plus an ellipsis. Slicing off a character boundary is a Rust panic,
modelled as the error case. -/
def truncateText (trimmed : String) (maxChars : Nat) : Except Unit String :=
  if maxChars < utf8Length trimmed then
    if isCharBoundary trimmed.data maxChars then
      Except.ok (String.mk (takeBytes trimmed.data maxChars) ++ "...")
    else Except.error ()
  else Except.ok trimmed

/-- Processing of one line inside get_latest_response: ok none means keep
scanning, ok some is the returned excerpt, error is a panic. -/
def latestFromLine (j : Json) (maxChars : Nat) : Except Unit (Option String) :=
  match decodeRawLogEntry j with
  | none => Except.ok none
  | some raw =>
    if raw.entry_type ≠ some "assistant" then Except.ok none
    else
      match raw.message with
      | none => Except.ok none
      | some message =>
        if message.role ≠ some "assistant" then Except.ok none
        else
          match message.content with
          | none => Except.ok none
          | some content =>
            let text_parts := content.filterMap contentText
            if text_parts.isEmpty then Except.ok none
            else
              let trimmed := rustTrim (joinSpace text_parts)
              if trimmed = "" then Except.ok none
              else (truncateText trimmed maxChars).map some

/-- Scan the lines of one file from the end towards the start. -/
def scanFileLines (maxChars : Nat) : List (Option Json) → Except Unit (Option String)
  | [] => Except.ok none
  | none :: rest => scanFileLines maxChars rest
  | some j :: rest =>
    match latestFromLine j maxChars with
    | Except.error u => Except.error u
    | Except.ok (some s) => Except.ok (some s)
    | Except.ok none => scanFileLines maxChars rest

/-- Scan up to the given files in order, most recently modified first. -/
def scanFiles (maxChars : Nat) : List (List (Option Json)) → Except Unit (Option String)
  | [] => Except.ok none
  | f :: rest =>
    match scanFileLines maxChars f.reverse with
    | Except.error u => Except.error u
    | Except.ok (some s) => Except.ok (some s)
    | Except.ok none => scanFiles maxChars rest

/-- UsageReader::get_latest_response over the scanned file contents: the
five most recently modified files are searched, newest lines first. -/
def getLatestResponse (files : List (List (Option Json))) (maxChars : Nat) :
    Except Unit (Option String) :=
  scanFiles maxChars (files.take 5)

/-! ### Concrete data used by counterexamples and witnesses -/

/-- A dated opus 4.5 model identifier. -/
def opus45Model : String := "claude-opus-4-5-20251101"

/-- A log line whose latest assistant text is one two-byte character. -/
def c10Json : Json :=
  Json.obj [("type", Json.str "assistant"),
    ("message", Json.obj [("role", Json.str "assistant"),
      ("content", Json.arr [Json.obj [("type", Json.str "text"),
        ("text", Json.str "é")]])])]

/-- Instant of the last refresh in the cache scenario. -/
def c5T0 : DT := ⟨2024, 1, 1, 0, 0, 0⟩

/-- An instant exactly 30 seconds after the last refresh. -/
def c5Now : DT := ⟨2024, 1, 1, 0, 0, 30⟩

/-- An instant 60 seconds after the last refresh. -/
def c5Later : DT := ⟨2024, 1, 1, 0, 1, 0⟩

/-- A cache state whose stored stats were computed at `c5T0`. -/
def c5State : ServiceState := ⟨some (calculateStats [] c5T0), some c5T0⟩

/-- The burn window membership test of one pass started at `now`. -/
def burnPred (now : DT) (e : UsageEntry) : Bool :=
  decide ((toSec now : Int) - 1800 ≤ (toSec e.timestamp : Int))

/-- The burn rate divisor set by the first burn window record of the pass:
its whole elapsed minutes, floored at one. -/
def burnDiv (now : DT) (e0 : UsageEntry) : Int :=
  max (Int.tdiv ((toSec now : Int) - (toSec e0.timestamp : Int)) 60) 1

/-- Pass start instant of the burn rate scenario. -/
def c3Now : DT := ⟨2024, 1, 10, 12, 0, 0⟩

/-- A burn window record 20 minutes old. -/
def c3E1 : UsageEntry :=
  ⟨⟨2024, 1, 10, 11, 40, 0⟩, "", "claude-sonnet-4", 100, 100, 0, 0, "a", "p"⟩

/-- A burn window record 5 minutes old. -/
def c3E2 : UsageEntry :=
  ⟨⟨2024, 1, 10, 11, 55, 0⟩, "", "claude-sonnet-4", 100, 100, 0, 0, "b", "p"⟩

/-- A record two hours old, outside the burn window. -/
def c3Old : UsageEntry :=
  ⟨⟨2024, 1, 10, 10, 0, 0⟩, "", "claude-sonnet-4", 500, 500, 0, 0, "c", "p"⟩

/-- A well formed log line five minutes before `c3Now`. -/
def c8Json : Json :=
  Json.obj [("type", Json.str "assistant"),
    ("timestamp", Json.str "2024-01-10T11:55:00Z"),
    ("uuid", Json.str "u1"),
    ("message", Json.obj [("role", Json.str "assistant"),
      ("model", Json.str "claude-sonnet-4"),
      ("usage", Json.obj [("input_tokens", Json.num 100),
        ("output_tokens", Json.num 100)])])]

/-- The record that `c8Json` parses to under project p. -/
def c8Entry : UsageEntry :=
  ⟨⟨2024, 1, 10, 11, 55, 0⟩, "", "claude-sonnet-4", 100, 100, 0, 0, "u1", "p"⟩

/-- A well formed log line ten days before `c3Now`. -/
def c8OldJson : Json :=
  Json.obj [("type", Json.str "assistant"),
    ("timestamp", Json.str "2023-12-31T12:00:00Z"),
    ("uuid", Json.str "u2"),
    ("message", Json.obj [("role", Json.str "assistant"),
      ("model", Json.str "claude-sonnet-4"),
      ("usage", Json.obj [("input_tokens", Json.num 7),
        ("output_tokens", Json.num 8)])])]

/-- Message object of the parser counterexample line. -/
def c4MsgFields : List (String × Json) :=
  [("role", Json.str "assistant"), ("model", Json.str "claude-sonnet-4"),
   ("usage", Json.obj [])]

/-- Fields of the parser counterexample line: all the claimed conditions
hold, yet the uuid field holds a number. -/
def c4Fields : List (String × Json) :=
  [("type", Json.str "assistant"),
   ("timestamp", Json.str "2024-01-10T11:55:00Z"),
   ("uuid", Json.num 5),
   ("message", Json.obj c4MsgFields)]

/-- The parser counterexample line. -/
def c4Json : Json := Json.obj c4Fields

/-- A line whose usage object has no numeric sub-fields. -/
def c4DefJson : Json :=
  Json.obj [("type", Json.str "assistant"),
    ("timestamp", Json.str "2024-01-10T11:55:00Z"),
    ("message", Json.obj [("role", Json.str "assistant"),
      ("model", Json.str "claude-sonnet-4"),
      ("usage", Json.obj [])])]

end Claudit

namespace Claudit

/-! ### Decimal rendering lemmas -/

theorem natDigitChar_toNat {n : Nat} (h : n < 10) :
    (natDigitChar n).toNat = 48 + n := by
  interval_cases n <;> decide

theorem digitsToNat_append (xs : List Char) (c : Char) :
    digitsToNat (xs ++ [c]) = digitsToNat xs * 10 + (c.toNat - 48) := by
  simp [digitsToNat, List.foldl_append]

theorem digitsToNat_natDigitsAux :
    ∀ fuel n, n < fuel → digitsToNat (natDigitsAux fuel n) = n := by
  intro fuel
  induction fuel with
  | zero => intro n h; omega
  | succ f ih =>
    intro n h
    by_cases h10 : n < 10
    · simp [natDigitsAux, h10, digitsToNat, natDigitChar_toNat h10]
    · have hdiv : n / 10 < f := by
        have := Nat.div_lt_self (by omega : 0 < n) (by omega : 1 < 10)
        omega
      have hmod : n % 10 < 10 := Nat.mod_lt _ (by omega)
      simp only [natDigitsAux, h10, if_false]
      rw [digitsToNat_append, ih _ hdiv, natDigitChar_toNat hmod]
      omega

theorem digitsToNat_natDigits (n : Nat) : digitsToNat (natDigits n) = n :=
  digitsToNat_natDigitsAux (n + 1) n (Nat.lt_succ_self n)

theorem natDigits_injective : Function.Injective natDigits := by
  intro m n h
  have := congrArg digitsToNat h
  rwa [digitsToNat_natDigits, digitsToNat_natDigits] at this

theorem natToString_injective : Function.Injective natToString := by
  intro m n h
  exact natDigits_injective (congrArg String.data h)

theorem natDigits_of_lt_ten {n : Nat} (h : n < 10) :
    natDigits n = [natDigitChar n] := by
  simp [natDigits, natDigitsAux, h]

theorem natDigits_length_two {n : Nat} (h1 : 10 ≤ n) (h2 : n ≤ 99) :
    (natDigits n).length = 2 := by
  obtain ⟨m, rfl⟩ : ∃ m, n = m + 1 := ⟨n - 1, by omega⟩
  have hq : (m + 1) / 10 < 10 := by omega
  simp [natDigits, natDigitsAux, show ¬(m + 1 < 10) from by omega, hq]

theorem pad2_length {n : Nat} (h : n ≤ 99) : (pad2 n).data.length = 2 := by
  by_cases h10 : n < 10
  · simp [pad2, h10]
  · simp [pad2, h10, natToString, natDigits_length_two (by omega) h]

theorem pad2_val {n : Nat} (h : n ≤ 99) : digitsToNat (pad2 n).data = n := by
  by_cases h10 : n < 10
  · simp [pad2, h10, digitsToNat, natDigitChar_toNat h10]
  · simp [pad2, h10, natToString, digitsToNat_natDigits]

theorem pad2_injOn {m n : Nat} (hm : m ≤ 99) (hn : n ≤ 99)
    (h : pad2 m = pad2 n) : m = n := by
  have := congrArg (fun s => digitsToNat s.data) h
  simpa [pad2_val hm, pad2_val hn] using this

/-! ### C2: cost schedule lookup precedence -/

/-- C2, counterexample: the schedule function that the aggregation engine
and the chart aggregator invoke (the get_model_costs private to
analytics.rs) gives a dated opus 4.5 model the generic opus schedule, not
the opus 4.5 schedule that the claimed dated-variant precedence requires
(and that the pricing.rs lookup implements). -/
theorem C2_counterexample :
    analyticsGetModelCosts opus45Model = ⟨15.0, 75.0, 1.50, 18.75⟩ ∧
    pricingGetModelCosts opus45Model = ⟨5.0, 25.0, 0.50, 6.25⟩ ∧
    analyticsGetModelCosts opus45Model ≠ pricingGetModelCosts opus45Model := by
  have h1 : analyticsGetModelCosts opus45Model = ⟨15.0, 75.0, 1.50, 18.75⟩ := rfl
  have h2 : pricingGetModelCosts opus45Model = ⟨5.0, 25.0, 0.50, 6.25⟩ := rfl
  refine ⟨h1, h2, ?_⟩
  intro h
  rw [h1, h2] at h
  exact absurd (congrArg TokenCosts.input h) (by norm_num)

/-- C2 (amended): the pricing.rs schedule lookup is total and follows
first-match-wins precedence on the lowercased model name, with the dated
opus 4.5 keywords checked before the generic opus family keyword and the
dated haiku keywords before the generic haiku keyword, defaulting to the
sonnet schedule when no keyword matches. The schedule function that the
aggregation engine and the chart aggregator actually invoke is the one
private to analytics.rs, which is total and first-match-wins over the
generic family keywords only (opus, then sonnet, then haiku, then the
default sonnet schedule) and has no dated-variant rules. -/
theorem C2_schedule_precedence :
    (∀ model : String,
      rustContains (rustToLowercase model) "opus-4-5" = true →
        pricingGetModelCosts model = ⟨5.0, 25.0, 0.50, 6.25⟩) ∧
    (∀ model : String,
      rustContains (rustToLowercase model) "opus" = true →
      rustContains (rustToLowercase model) "opus-4-5" = false →
      rustContains (rustToLowercase model) "opus-4.5" = false →
        pricingGetModelCosts model = ⟨15.0, 75.0, 1.50, 18.75⟩) ∧
    (∀ model : String,
      rustContains (rustToLowercase model) "haiku-4-5" = true →
      rustContains (rustToLowercase model) "opus-4-5" = false →
      rustContains (rustToLowercase model) "opus-4.5" = false →
      rustContains (rustToLowercase model) "opus" = false →
        pricingGetModelCosts model = ⟨1.0, 5.0, 0.10, 1.25⟩) ∧
    (∀ model : String,
      rustContains (rustToLowercase model) "haiku" = true →
      rustContains (rustToLowercase model) "opus" = false →
      rustContains (rustToLowercase model) "haiku-4-5" = false →
      rustContains (rustToLowercase model) "haiku-4.5" = false →
      rustContains (rustToLowercase model) "haiku-3-5" = false →
      rustContains (rustToLowercase model) "haiku-3.5" = false →
      rustContains (rustToLowercase model) "opus-4-5" = false →
      rustContains (rustToLowercase model) "opus-4.5" = false →
        pricingGetModelCosts model = ⟨0.25, 1.25, 0.03, 0.30⟩) ∧
    (∀ model : String,
      rustContains (rustToLowercase model) "opus" = false →
      rustContains (rustToLowercase model) "haiku" = false →
      rustContains (rustToLowercase model) "opus-4-5" = false →
      rustContains (rustToLowercase model) "opus-4.5" = false →
      rustContains (rustToLowercase model) "haiku-4-5" = false →
      rustContains (rustToLowercase model) "haiku-4.5" = false →
      rustContains (rustToLowercase model) "haiku-3-5" = false →
      rustContains (rustToLowercase model) "haiku-3.5" = false →
        pricingGetModelCosts model = ⟨3.0, 15.0, 0.30, 3.75⟩) ∧
    (∀ model : String,
      rustContains (rustToLowercase model) "opus" = true →
        analyticsGetModelCosts model = ⟨15.0, 75.0, 1.50, 18.75⟩) ∧
    (∀ model : String,
      rustContains (rustToLowercase model) "opus" = false →
      rustContains (rustToLowercase model) "sonnet" = true →
        analyticsGetModelCosts model = ⟨3.0, 15.0, 0.30, 3.75⟩) ∧
    (∀ model : String,
      rustContains (rustToLowercase model) "opus" = false →
      rustContains (rustToLowercase model) "sonnet" = false →
      rustContains (rustToLowercase model) "haiku" = true →
        analyticsGetModelCosts model = ⟨0.25, 1.25, 0.025, 0.30⟩) ∧
    (∀ model : String,
      rustContains (rustToLowercase model) "opus" = false →
      rustContains (rustToLowercase model) "sonnet" = false →
      rustContains (rustToLowercase model) "haiku" = false →
        analyticsGetModelCosts model = TokenCosts.default) := by
  refine ⟨?_, ?_, ?_, ?_, ?_, ?_, ?_, ?_, ?_⟩ <;>
    intro model <;> intros <;>
    simp_all [pricingGetModelCosts, analyticsGetModelCosts]

/-- C2, witness: the amended precedence statements evaluated at concrete
model names. -/
theorem C2_witness :
    pricingGetModelCosts "claude-opus-4-5-20251101" = ⟨5.0, 25.0, 0.50, 6.25⟩ ∧
    pricingGetModelCosts "claude-opus-4-20250514" = ⟨15.0, 75.0, 1.50, 18.75⟩ ∧
    pricingGetModelCosts "claude-haiku-4-5" = ⟨1.0, 5.0, 0.10, 1.25⟩ ∧
    pricingGetModelCosts "claude-haiku-3-20240307" = ⟨0.25, 1.25, 0.03, 0.30⟩ ∧
    pricingGetModelCosts "claude-sonnet-4-20250514" = ⟨3.0, 15.0, 0.30, 3.75⟩ ∧
    analyticsGetModelCosts "claude-opus-4-20250514" = ⟨15.0, 75.0, 1.50, 18.75⟩ ∧
    analyticsGetModelCosts "claude-sonnet-4-20250514" = ⟨3.0, 15.0, 0.30, 3.75⟩ ∧
    analyticsGetModelCosts "claude-haiku-3-20240307" = ⟨0.25, 1.25, 0.025, 0.30⟩ ∧
    analyticsGetModelCosts "gpt-4o" = TokenCosts.default :=
  ⟨C2_schedule_precedence.1 _ (by decide),
   C2_schedule_precedence.2.1 _ (by decide) (by decide) (by decide),
   C2_schedule_precedence.2.2.1 _ (by decide) (by decide) (by decide) (by decide),
   C2_schedule_precedence.2.2.2.1 _ (by decide) (by decide) (by decide)
     (by decide) (by decide) (by decide) (by decide) (by decide),
   C2_schedule_precedence.2.2.2.2.1 _ (by decide) (by decide) (by decide)
     (by decide) (by decide) (by decide) (by decide) (by decide),
   C2_schedule_precedence.2.2.2.2.2.1 _ (by decide),
   C2_schedule_precedence.2.2.2.2.2.2.1 _ (by decide) (by decide),
   C2_schedule_precedence.2.2.2.2.2.2.2.1 _ (by decide) (by decide) (by decide),
   C2_schedule_precedence.2.2.2.2.2.2.2.2 _ (by decide) (by decide) (by decide)⟩

/-! ### C10: latest response truncation safety -/

/-- C10: the truncation inside get_latest_response slices the trimmed text
at byte index max_chars, which panics when that index is not a UTF-8
character boundary; a single two-byte character with max_chars equal to one
makes the whole lookup fail instead of returning normally. -/
theorem C10_bug :
    getLatestResponse [[some c10Json]] 1 = Except.error () ∧
    utf8Length "é" = 2 ∧ isCharBoundary "é".data 1 = false := by
  refine ⟨rfl, rfl, rfl⟩

/-! ### C5: stats cache staleness -/

/-- C5, counterexample: at an elapsed time of exactly 30 seconds (not below
the threshold), get_stats still serves the cached value unchanged and does
not recompute, although a recomputation would have produced a different
last_updated; so it is not the case that the cache recomputes whenever the
elapsed time is not below 30 seconds. -/
theorem C5_counterexample :
    (toSec c5Now : Int) - (toSec c5T0 : Int) = 30 ∧
    getStats c5State [] c5Now = (calculateStats [] c5T0, c5State) ∧
    (calculateStats [] c5T0).last_updated = some c5T0 ∧
    (calculateStats [] c5Now).last_updated = some c5Now ∧
    calculateStats [] c5T0 ≠ calculateStats [] c5Now := by
  refine ⟨by decide, by decide, by decide, by decide, ?_⟩
  intro h
  have := congrArg AnalyticsStats.last_updated h
  have h1 : (calculateStats [] c5T0).last_updated = some c5T0 := by decide
  have h2 : (calculateStats [] c5Now).last_updated = some c5Now := by decide
  rw [h1, h2] at this
  have : c5T0 = c5Now := Option.some.inj this
  exact absurd (congrArg DT.second this) (by decide)

/-- C5 (amended): get_stats serves the cached stats bit-identically, with
state unchanged, whenever a cached value exists and at most 30 seconds have
elapsed since the last refresh; it synchronously recomputes, stores, and
returns the new value when strictly more than 30 seconds have elapsed, when
no refresh was ever recorded, or when no cached value exists; refresh_stats
always recomputes unconditionally, overwrites the cached value, and sets
the last refresh instant and the returned last_updated to now. -/
theorem C5_cache_staleness :
    (∀ (st : ServiceState) (s : AnalyticsStats) (t : DT)
        (entries : List UsageEntry) (now : DT),
      st.cached_stats = some s → st.last_refresh = some t →
      (toSec now : Int) - (toSec t : Int) ≤ 30 →
      getStats st entries now = (s, st)) ∧
    (∀ (st : ServiceState) (t : DT) (entries : List UsageEntry) (now : DT),
      st.last_refresh = some t → 30 < (toSec now : Int) - (toSec t : Int) →
      getStats st entries now = refreshStats entries now) ∧
    (∀ (st : ServiceState) (entries : List UsageEntry) (now : DT),
      st.last_refresh = none →
      getStats st entries now = refreshStats entries now) ∧
    (∀ (st : ServiceState) (entries : List UsageEntry) (now : DT),
      st.cached_stats = none →
      getStats st entries now = refreshStats entries now) ∧
    (∀ (entries : List UsageEntry) (now : DT),
      refreshStats entries now =
        (calculateStats entries now,
          ⟨some (calculateStats entries now), some now⟩) ∧
      (calculateStats entries now).last_updated = some now) := by
  refine ⟨?_, ?_, ?_, ?_, ?_⟩
  · intro st s t entries now hc hl hle
    have : needsRefresh st now = false := by
      simp [needsRefresh, hl]
      omega
    simp [getStats, this, hc]
  · intro st t entries now hl hgt
    have : needsRefresh st now = true := by
      simp [needsRefresh, hl]
      omega
    simp [getStats, this]
  · intro st entries now hl
    have : needsRefresh st now = true := by simp [needsRefresh, hl]
    simp [getStats, this]
  · intro st entries now hc
    by_cases h : needsRefresh st now
    · simp [getStats, h]
    · simp [getStats, h, hc]
  · intro entries now
    refine ⟨rfl, ?_⟩
    simp only [calculateStats]
    split <;> rfl

/-- C5, witness: the cache behaviour evaluated at a state refreshed at
c5T0, queried 30 seconds later (served from cache) and 60 seconds later
(recomputed). -/
theorem C5_witness :
    getStats c5State [] c5Now = (calculateStats [] c5T0, c5State) ∧
    getStats c5State [] c5Later = refreshStats [] c5Later :=
  ⟨C5_cache_staleness.1 c5State (calculateStats [] c5T0) c5T0 [] c5Now
      rfl rfl (by decide),
   C5_cache_staleness.2.1 c5State c5T0 [] c5Later rfl (by decide)⟩

/-! ### C3: burn rate windowing -/

theorem statsStep_burn (a : Int) (b : String) (c nowSec : Int)
    (st : StatsState) (e : UsageEntry) :
    (statsStep a b c nowSec st e).burn_window_tokens =
      (if c ≤ (toSec e.timestamp : Int) then
        st.burn_window_tokens + e.total_tokens else st.burn_window_tokens) ∧
    (statsStep a b c nowSec st e).burn_window_cost =
      (if c ≤ (toSec e.timestamp : Int) then
        st.burn_window_cost + calculateEntryCost e else st.burn_window_cost) ∧
    (statsStep a b c nowSec st e).burn_window_minutes =
      (if c ≤ (toSec e.timestamp : Int) then
        (if st.burn_window_minutes = 0 then
          max (Int.tdiv (nowSec - (toSec e.timestamp : Int)) 60) 1
        else st.burn_window_minutes)
      else st.burn_window_minutes) :=
  ⟨rfl, rfl, rfl⟩

theorem statsStep_rates (a : Int) (b : String) (c nowSec : Int)
    (st : StatsState) (e : UsageEntry) :
    (statsStep a b c nowSec st e).stats.tokens_per_minute =
      st.stats.tokens_per_minute ∧
    (statsStep a b c nowSec st e).stats.cost_per_hour =
      st.stats.cost_per_hour := by
  constructor <;> (simp only [statsStep]; split <;> split <;> rfl)

theorem foldl_statsStep_burn (a : Int) (b : String) (c nowSec : Int) :
    ∀ (entries : List UsageEntry) (st : StatsState),
      (entries.foldl (statsStep a b c nowSec) st).burn_window_tokens =
        st.burn_window_tokens +
          ((entries.filter
            (fun e => decide (c ≤ (toSec e.timestamp : Int)))).map
              UsageEntry.total_tokens).sum ∧
      (entries.foldl (statsStep a b c nowSec) st).burn_window_cost =
        st.burn_window_cost +
          ((entries.filter
            (fun e => decide (c ≤ (toSec e.timestamp : Int)))).map
              calculateEntryCost).sum ∧
      (entries.foldl (statsStep a b c nowSec) st).burn_window_minutes =
        (match entries.filter
            (fun e => decide (c ≤ (toSec e.timestamp : Int))) with
         | [] => st.burn_window_minutes
         | e0 :: _ =>
           if st.burn_window_minutes = 0 then
             max (Int.tdiv (nowSec - (toSec e0.timestamp : Int)) 60) 1
           else st.burn_window_minutes) := by
  intro entries
  induction entries with
  | nil => intro st; simp
  | cons e rest ih =>
    intro st
    obtain ⟨htk, hc, hm⟩ := statsStep_burn a b c nowSec st e
    obtain ⟨rtk, rc, rm⟩ := ih (statsStep a b c nowSec st e)
    by_cases hw : c ≤ (toSec e.timestamp : Int)
    · have hfil : (e :: rest).filter
          (fun e => decide (c ≤ (toSec e.timestamp : Int))) =
          e :: rest.filter (fun e => decide (c ≤ (toSec e.timestamp : Int))) := by
        simp [List.filter_cons, hw]
      refine ⟨?_, ?_, ?_⟩
      · rw [List.foldl_cons, rtk, htk, if_pos hw, hfil]
        simp
        ring
      · rw [List.foldl_cons, rc, hc, if_pos hw, hfil]
        simp
        ring
      · rw [List.foldl_cons, rm, hm, if_pos hw, hfil]
        by_cases hz : st.burn_window_minutes = 0
        · have hpos : (1 : Int) ≤
              max (Int.tdiv (nowSec - (toSec e.timestamp : Int)) 60) 1 :=
            le_max_right _ _
          cases rest.filter (fun e => decide (c ≤ (toSec e.timestamp : Int))) with
          | nil => simp [hz]
          | cons f fs => simp [hz]; omega
        · cases rest.filter (fun e => decide (c ≤ (toSec e.timestamp : Int))) with
          | nil => simp [hz]
          | cons f fs => simp [hz]
    · have hfil : (e :: rest).filter
          (fun e => decide (c ≤ (toSec e.timestamp : Int))) =
          rest.filter (fun e => decide (c ≤ (toSec e.timestamp : Int))) := by
        simp [List.filter_cons, hw]
      refine ⟨?_, ?_, ?_⟩
      · rw [List.foldl_cons, rtk, htk, if_neg hw, hfil]
      · rw [List.foldl_cons, rc, hc, if_neg hw, hfil]
      · rw [List.foldl_cons, rm, hm, if_neg hw, hfil]

theorem foldl_statsStep_rates (a : Int) (b : String) (c nowSec : Int) :
    ∀ (entries : List UsageEntry) (st : StatsState),
      (entries.foldl (statsStep a b c nowSec) st).stats.tokens_per_minute =
        st.stats.tokens_per_minute ∧
      (entries.foldl (statsStep a b c nowSec) st).stats.cost_per_hour =
        st.stats.cost_per_hour := by
  intro entries
  induction entries with
  | nil => intro st; exact ⟨rfl, rfl⟩
  | cons e rest ih =>
    intro st
    obtain ⟨h1, h2⟩ := ih (statsStep a b c nowSec st e)
    obtain ⟨g1, g2⟩ := statsStep_rates a b c nowSec st e
    exact ⟨by rw [List.foldl_cons, h1, g1], by rw [List.foldl_cons, h2, g2]⟩

theorem calculateStats_burn (entries : List UsageEntry) (now : DT) :
    ((calculateStats entries now).tokens_per_minute,
     (calculateStats entries now).cost_per_hour) =
    (match entries.filter (burnPred now) with
     | [] => ((0 : ℚ), (0 : ℚ))
     | e0 :: rest =>
       ((((e0 :: rest).map UsageEntry.total_tokens).sum : ℚ) /
          ((burnDiv now e0 : Int) : ℚ),
        ((((e0 :: rest).map calculateEntryCost).sum) /
          ((burnDiv now e0 : Int) : ℚ)) * 60)) := by
  obtain ⟨htk, hc, hm⟩ := foldl_statsStep_burn
    ((86400 * dayNumber now : Nat) : Int) (getSessionBlockKey now)
    ((toSec now : Int) - 1800) (toSec now) entries initStatsState
  obtain ⟨ptk, pc⟩ := foldl_statsStep_rates
    ((86400 * dayNumber now : Nat) : Int) (getSessionBlockKey now)
    ((toSec now : Int) - 1800) (toSec now) entries initStatsState
  have hpred : (fun e : UsageEntry =>
      decide (((toSec now : Int) - 1800) ≤ (toSec e.timestamp : Int))) =
      burnPred now := rfl
  rw [hpred] at htk hc hm
  simp only [calculateStats]
  cases hfil : entries.filter (burnPred now) with
  | nil =>
    rw [hfil] at htk hc hm
    have hm0 : (entries.foldl
        (statsStep ((86400 * dayNumber now : Nat) : Int)
          (getSessionBlockKey now) ((toSec now : Int) - 1800) (toSec now))
        initStatsState).burn_window_minutes = (0 : Int) := hm
    rw [if_neg (by rw [hm0]; omega)]
    exact congrArg₂ Prod.mk ptk pc
  | cons e0 rest =>
    rw [hfil] at htk hc hm
    have hm1 : (entries.foldl
        (statsStep ((86400 * dayNumber now : Nat) : Int)
          (getSessionBlockKey now) ((toSec now : Int) - 1800) (toSec now))
        initStatsState).burn_window_minutes = burnDiv now e0 := hm
    have hpos : (0 : Int) <
        (entries.foldl
          (statsStep ((86400 * dayNumber now : Nat) : Int)
            (getSessionBlockKey now) ((toSec now : Int) - 1800) (toSec now))
          initStatsState).burn_window_minutes := by
      rw [hm1]
      exact lt_of_lt_of_le one_pos (le_max_right _ _)
    rw [if_pos hpos]
    refine congrArg₂ Prod.mk ?_ ?_
    · rw [hm1, htk]
      norm_num [initStatsState]
    · rw [hm1, hc]
      norm_num [initStatsState]

/-- C3, counterexample: with two burn window records 20 and 5 minutes old
(200 tokens each), the code divides by the elapsed minutes of the first
record encountered (20, the oldest, since entries are processed in
ascending timestamp order), giving 20 tokens per minute; the claimed
divisor, the minimum elapsed minutes among burn window records (5), would
give 80. -/
theorem C3_counterexample :
    (toSec c3Now : Int) - (toSec c3E1.timestamp : Int) = 1200 ∧
    (toSec c3Now : Int) - (toSec c3E2.timestamp : Int) = 300 ∧
    (calculateStats [c3E1, c3E2] c3Now).tokens_per_minute = 20 ∧
    ((c3E1.total_tokens + c3E2.total_tokens : ℚ) / 5 = 80) ∧
    (20 : ℚ) ≠ 80 := by
  refine ⟨by decide, by decide, ?_, ?_, by norm_num⟩
  · have h := calculateStats_burn [c3E1, c3E2] c3Now
    have hfil : [c3E1, c3E2].filter (burnPred c3Now) = [c3E1, c3E2] := by decide
    rw [hfil] at h
    have h1 := congrArg Prod.fst h
    simp only at h1
    have hsum : ([c3E1, c3E2].map UsageEntry.total_tokens).sum = 400 := by decide
    have hbd : burnDiv c3Now c3E1 = 20 := by decide
    rw [h1]
    simp only [List.map_cons, List.map_nil, List.sum_cons, List.sum_nil]
    rw [show (c3E1.total_tokens : Nat) = 200 from by decide,
      show (c3E2.total_tokens : Nat) = 200 from by decide, hbd]
    norm_num
  · rw [show (c3E1.total_tokens : Nat) = 200 from by decide,
      show (c3E2.total_tokens : Nat) = 200 from by decide]
    norm_num

/-- C3 (amended): a record older than 30 minutes at pass start contributes
nothing to tokens_per_minute or cost_per_hour; with zero burn window
records both are exactly 0; otherwise tokens_per_minute is the burn window
token sum divided by d and cost_per_hour is the burn window cost sum over d
times 60, where d is the elapsed whole minutes of the FIRST burn window
record encountered (floored at 1, not updated thereafter); since entries
arrive sorted ascending by timestamp this is the oldest burn window record,
not the one of minimum elapsed minutes. -/
theorem C3_burn_rate :
    (∀ (now : DT) (xs ys : List UsageEntry) (e : UsageEntry),
      (toSec e.timestamp : Int) < (toSec now : Int) - 1800 →
      (calculateStats (xs ++ e :: ys) now).tokens_per_minute =
        (calculateStats (xs ++ ys) now).tokens_per_minute ∧
      (calculateStats (xs ++ e :: ys) now).cost_per_hour =
        (calculateStats (xs ++ ys) now).cost_per_hour) ∧
    (∀ (now : DT) (entries : List UsageEntry),
      (∀ e ∈ entries, (toSec e.timestamp : Int) < (toSec now : Int) - 1800) →
      (calculateStats entries now).tokens_per_minute = 0 ∧
      (calculateStats entries now).cost_per_hour = 0) ∧
    (∀ (now : DT) (entries : List UsageEntry) (e0 : UsageEntry)
        (rest : List UsageEntry),
      entries.filter (burnPred now) = e0 :: rest →
      (calculateStats entries now).tokens_per_minute =
        (((e0 :: rest).map UsageEntry.total_tokens).sum : ℚ) /
          ((burnDiv now e0 : Int) : ℚ) ∧
      (calculateStats entries now).cost_per_hour =
        (((e0 :: rest).map calculateEntryCost).sum /
          ((burnDiv now e0 : Int) : ℚ)) * 60) := by
  refine ⟨?_, ?_, ?_⟩
  · intro now xs ys e he
    have hp : burnPred now e = false := by
      simp [burnPred]
      omega
    have hfil : (xs ++ e :: ys).filter (burnPred now) =
        (xs ++ ys).filter (burnPred now) := by
      simp [List.filter_append, List.filter_cons, hp]
    have h1 := calculateStats_burn (xs ++ e :: ys) now
    have h2 := calculateStats_burn (xs ++ ys) now
    rw [hfil] at h1
    have h3 := h1.trans h2.symm
    exact ⟨congrArg Prod.fst h3, congrArg Prod.snd h3⟩
  · intro now entries hall
    have hfil : entries.filter (burnPred now) = [] := by
      rw [List.filter_eq_nil_iff]
      intro e he
      have := hall e he
      simp [burnPred]
      omega
    have h := calculateStats_burn entries now
    rw [hfil] at h
    exact ⟨congrArg Prod.fst h, congrArg Prod.snd h⟩
  · intro now entries e0 rest hfil
    have h := calculateStats_burn entries now
    rw [hfil] at h
    exact ⟨congrArg Prod.fst h, congrArg Prod.snd h⟩

/-- C3, witness: the amended burn rate behaviour evaluated on records 20
minutes, 5 minutes, and two hours old at a concrete pass start. -/
theorem C3_witness :
    ((calculateStats ([c3E1] ++ c3Old :: [c3E2]) c3Now).tokens_per_minute =
      (calculateStats ([c3E1] ++ [c3E2]) c3Now).tokens_per_minute ∧
     (calculateStats ([c3E1] ++ c3Old :: [c3E2]) c3Now).cost_per_hour =
      (calculateStats ([c3E1] ++ [c3E2]) c3Now).cost_per_hour) ∧
    ((calculateStats [c3Old] c3Now).tokens_per_minute = 0 ∧
     (calculateStats [c3Old] c3Now).cost_per_hour = 0) ∧
    ((calculateStats [c3E1, c3E2] c3Now).tokens_per_minute =
      (([c3E1, c3E2].map UsageEntry.total_tokens).sum : ℚ) /
        ((burnDiv c3Now c3E1 : Int) : ℚ) ∧
     (calculateStats [c3E1, c3E2] c3Now).cost_per_hour =
      (([c3E1, c3E2].map calculateEntryCost).sum /
        ((burnDiv c3Now c3E1 : Int) : ℚ)) * 60) :=
  ⟨C3_burn_rate.1 c3Now [c3E1] [c3E2] c3Old (by decide),
   C3_burn_rate.2.1 c3Now [c3Old] (by decide),
   C3_burn_rate.2.2 c3Now [c3E1, c3E2] c3E1 [c3E2] (by decide)⟩

/-! ### C6: one cost function for both views -/

theorem sum_map_updateAssoc {K V : Type} [DecidableEq K] (g : V → ℚ)
    (k : K) (d : V) (f : V → V) (c : ℚ) (hf : ∀ v, g (f v) = g v + c)
    (hd : g d = 0) :
    ∀ m : List (K × V),
      ((updateAssoc k d f m).map (fun kv => g kv.2)).sum =
        ((m.map (fun kv => g kv.2)).sum) + c := by
  intro m
  induction m with
  | nil => simp [updateAssoc, hf, hd]
  | cons kv rest ih =>
    by_cases hk : kv.1 = k
    · obtain ⟨k0, v⟩ := kv
      simp only at hk
      simp [updateAssoc, hk, hf]
      ring
    · obtain ⟨k0, v⟩ := kv
      simp only at hk
      simp [updateAssoc, hk, ih]
      ring

theorem statsStep_total_cost (a : Int) (b : String) (c d : Int)
    (st : StatsState) (e : UsageEntry) :
    (statsStep a b c d st e).stats.total_cost =
      st.stats.total_cost + calculateEntryCost e := by
  simp only [statsStep]
  split <;> split <;> rfl

theorem foldl_statsStep_total_cost (a : Int) (b : String) (c d : Int) :
    ∀ (entries : List UsageEntry) (st : StatsState),
      (entries.foldl (statsStep a b c d) st).stats.total_cost =
        st.stats.total_cost + (entries.map calculateEntryCost).sum := by
  intro entries
  induction entries with
  | nil => intro st; simp
  | cons e rest ih =>
    intro st
    simp only [List.foldl_cons, List.map_cons, List.sum_cons]
    rw [ih, statsStep_total_cost]
    ring

theorem dailyMapOf_cost_sum (entries : List UsageEntry) :
    ((dailyMapOf entries).map (fun kv => kv.2.cost)).sum =
      (entries.map calculateEntryCost).sum := by
  suffices h : ∀ m : List (String × DailyStats),
      ((entries.foldl
        (fun m e =>
          let date_key := formatYMD e.timestamp
          updateAssoc date_key ⟨date_key, 0, 0, 0, 0⟩
            (fun d => { d with
              input_tokens := d.input_tokens + e.input_tokens
              output_tokens := d.output_tokens + e.output_tokens
              cost := d.cost + calculateEntryCost e
              messages := d.messages + 1 }) m) m).map (fun kv => kv.2.cost)).sum =
      ((m.map (fun kv => kv.2.cost)).sum) + (entries.map calculateEntryCost).sum by
    simpa [dailyMapOf] using h []
  induction entries with
  | nil => intro m; simp
  | cons e rest ih =>
    intro m
    simp only [List.foldl_cons, List.map_cons, List.sum_cons]
    rw [ih, sum_map_updateAssoc (fun d : DailyStats => d.cost) _ _ _
      (calculateEntryCost e) (fun v => rfl) rfl]
    ring

theorem modelMapOf_cost_sum (entries : List UsageEntry) :
    ((modelMapOf entries).map (fun kv => kv.2.2)).sum =
      (entries.map calculateEntryCost).sum := by
  suffices h : ∀ m : List (String × (Nat × ℚ)),
      ((entries.foldl
        (fun m e =>
          updateAssoc e.model (0, 0)
            (fun p => (p.1 + e.total_tokens, p.2 + calculateEntryCost e)) m)
        m).map (fun kv => kv.2.2)).sum =
      ((m.map (fun kv => kv.2.2)).sum) + (entries.map calculateEntryCost).sum by
    simpa [modelMapOf] using h []
  induction entries with
  | nil => intro m; simp
  | cons e rest ih =>
    intro m
    simp only [List.foldl_cons, List.map_cons, List.sum_cons]
    rw [ih, sum_map_updateAssoc (fun p : Nat × ℚ => p.2) _ _ _
      (calculateEntryCost e) (fun v => rfl) rfl]
    ring

theorem projectMapOf_cost_sum (entries : List UsageEntry) :
    ((projectMapOf entries).map (fun kv => kv.2.2)).sum =
      (entries.map calculateEntryCost).sum := by
  suffices h : ∀ m : List (String × (Nat × ℚ)),
      ((entries.foldl
        (fun m e =>
          updateAssoc e.project (0, 0)
            (fun p => (p.1 + e.total_tokens, p.2 + calculateEntryCost e)) m)
        m).map (fun kv => kv.2.2)).sum =
      ((m.map (fun kv => kv.2.2)).sum) + (entries.map calculateEntryCost).sum by
    simpa [projectMapOf] using h []
  induction entries with
  | nil => intro m; simp
  | cons e rest ih =>
    intro m
    simp only [List.foldl_cons, List.map_cons, List.sum_cons]
    rw [ih, sum_map_updateAssoc (fun p : Nat × ℚ => p.2) _ _ _
      (calculateEntryCost e) (fun v => rfl) rfl]
    ring

/-- C6: every record is priced as the sum over the four token buckets of
tokens over one million times the bucket rate of the schedule, and the
aggregation engine and the chart aggregator apply this same cost function,
so the total cost of the stats pass equals the summed per-record costs and
equals the cost mass of each chart view (daily, by model, by project)
computed from the same entries. -/
theorem C6_cost_function_agreement :
    (∀ e : UsageEntry,
      calculateEntryCost e =
        ((e.input_tokens : ℚ) / 1000000) * (analyticsGetModelCosts e.model).input +
        ((e.output_tokens : ℚ) / 1000000) * (analyticsGetModelCosts e.model).output +
        ((e.cache_read_tokens : ℚ) / 1000000) * (analyticsGetModelCosts e.model).cache_read +
        ((e.cache_creation_tokens : ℚ) / 1000000) * (analyticsGetModelCosts e.model).cache_write) ∧
    (∀ (entries : List UsageEntry) (now : DT),
      (calculateStats entries now).total_cost =
        (entries.map calculateEntryCost).sum) ∧
    (∀ entries : List UsageEntry,
      ((getChartData entries).daily.map DailyStats.cost).sum =
        (entries.map calculateEntryCost).sum) ∧
    (∀ entries : List UsageEntry,
      ((getChartData entries).by_model.map ModelChartData.cost).sum =
        (entries.map calculateEntryCost).sum) ∧
    (∀ entries : List UsageEntry,
      ((getChartData entries).by_project.map ProjectChartData.cost).sum =
        (entries.map calculateEntryCost).sum) := by
  refine ⟨fun e => rfl, ?_, ?_, ?_, ?_⟩
  · intro entries now
    have h := foldl_statsStep_total_cost (86400 * dayNumber now : Nat)
      (getSessionBlockKey now) ((toSec now : Int) - 1800) (toSec now)
      entries initStatsState
    simp only [calculateStats]
    split
    · simpa [initStatsState, AnalyticsStats.default] using h
    · simpa [initStatsState, AnalyticsStats.default] using h
  · intro entries
    have hperm : (getChartData entries).daily.Perm
        ((dailyMapOf entries).map (·.2)) :=
      List.perm_insertionSort dailyLE _
    calc ((getChartData entries).daily.map DailyStats.cost).sum
        = (((dailyMapOf entries).map (·.2)).map DailyStats.cost).sum :=
          (hperm.map DailyStats.cost).sum_eq
      _ = (entries.map calculateEntryCost).sum := by
          rw [List.map_map]; exact dailyMapOf_cost_sum entries
  · intro entries
    have hperm : (getChartData entries).by_model.Perm
        ((modelMapOf entries).map (fun kv => ⟨kv.1, kv.2.1, kv.2.2⟩)) :=
      List.perm_insertionSort modelDesc _
    calc ((getChartData entries).by_model.map ModelChartData.cost).sum
        = (((modelMapOf entries).map
            (fun kv => (⟨kv.1, kv.2.1, kv.2.2⟩ : ModelChartData))).map
            ModelChartData.cost).sum :=
          (hperm.map ModelChartData.cost).sum_eq
      _ = (entries.map calculateEntryCost).sum := by
          rw [List.map_map]; exact modelMapOf_cost_sum entries
  · intro entries
    have hperm : (getChartData entries).by_project.Perm
        ((projectMapOf entries).map (fun kv => ⟨kv.1, kv.2.1, kv.2.2⟩)) :=
      List.perm_insertionSort projectDesc _
    calc ((getChartData entries).by_project.map ProjectChartData.cost).sum
        = (((projectMapOf entries).map
            (fun kv => (⟨kv.1, kv.2.1, kv.2.2⟩ : ProjectChartData))).map
            ProjectChartData.cost).sum :=
          (hperm.map ProjectChartData.cost).sum_eq
      _ = (entries.map calculateEntryCost).sum := by
          rw [List.map_map]; exact projectMapOf_cost_sum entries

/-! ### C7: the five hour session block partition -/

theorem string_data_inj {s t : String} (h : s.data = t.data) : s = t := by
  cases s; cases t; exact congrArg String.mk h

theorem sessionKey_data (t : DT) :
    (getSessionBlockKey t).data =
      natDigits t.year ++ '-' :: ((pad2 t.month).data ++
        '-' :: ((pad2 t.day).data ++ '-' :: natDigits (t.hour / 5))) := by
  simp [getSessionBlockKey, String.data_append, natToString]

theorem sessionKey_components {t1 t2 : DT} (h1 : t1.Valid) (h2 : t2.Valid)
    (h : getSessionBlockKey t1 = getSessionBlockKey t2) :
    t1.year = t2.year ∧ t1.month = t2.month ∧ t1.day = t2.day ∧
      t1.hour / 5 = t2.hour / 5 := by
  obtain ⟨hm1a, hm1b, hd1a, hd1b, hh1, _, _⟩ := h1
  obtain ⟨hm2a, hm2b, hd2a, hd2b, hh2, _, _⟩ := h2
  have hdm1 : t1.day ≤ 31 := by
    have h31 := hd1b
    unfold daysInMonth at h31
    split_ifs at h31 <;> omega
  have hdm2 : t2.day ≤ 31 := by
    have h31 := hd2b
    unfold daysInMonth at h31
    split_ifs at h31 <;> omega
  have hb1 : t1.hour / 5 < 10 := by omega
  have hb2 : t2.hour / 5 < 10 := by omega
  have hdata := congrArg String.data h
  rw [sessionKey_data, sessionKey_data] at hdata
  have hlen : ('-' :: ((pad2 t1.month).data ++
        '-' :: ((pad2 t1.day).data ++ '-' :: natDigits (t1.hour / 5)))).length =
      ('-' :: ((pad2 t2.month).data ++
        '-' :: ((pad2 t2.day).data ++ '-' :: natDigits (t2.hour / 5)))).length := by
    simp [pad2_length (show t1.month ≤ 99 by omega),
      pad2_length (show t2.month ≤ 99 by omega),
      pad2_length (show t1.day ≤ 99 by omega),
      pad2_length (show t2.day ≤ 99 by omega),
      natDigits_of_lt_ten hb1, natDigits_of_lt_ten hb2]
  obtain ⟨hy, htail⟩ := List.append_inj' hdata hlen
  have hyear := natDigits_injective hy
  have htail2 := List.tail_eq_of_cons_eq htail
  obtain ⟨hmo, htail3⟩ := List.append_inj htail2
    (by rw [pad2_length (show t1.month ≤ 99 by omega),
      pad2_length (show t2.month ≤ 99 by omega)])
  have hmonth := pad2_injOn (show t1.month ≤ 99 by omega)
    (show t2.month ≤ 99 by omega) (string_data_inj hmo)
  have htail4 := List.tail_eq_of_cons_eq htail3
  obtain ⟨hdy, htail5⟩ := List.append_inj htail4
    (by rw [pad2_length (show t1.day ≤ 99 by omega),
      pad2_length (show t2.day ≤ 99 by omega)])
  have hday := pad2_injOn (show t1.day ≤ 99 by omega)
    (show t2.day ≤ 99 by omega) (string_data_inj hdy)
  have hblock := natDigits_injective (List.tail_eq_of_cons_eq htail5)
  exact ⟨hyear, hmonth, hday, hblock⟩

theorem sessionKey_close {t1 t2 : DT} (h1 : t1.Valid) (h2 : t2.Valid)
    (h : getSessionBlockKey t1 = getSessionBlockKey t2) :
    (toSec t1 : Int) - (toSec t2 : Int) < 18000 ∧
      (toSec t2 : Int) - (toSec t1 : Int) < 18000 := by
  obtain ⟨hy, hm, hd, hb⟩ := sessionKey_components h1 h2 h
  obtain ⟨_, _, _, _, hh1, hmi1, hs1⟩ := h1
  obtain ⟨_, _, _, _, hh2, hmi2, hs2⟩ := h2
  have hdn : dayNumber t1 = dayNumber t2 := by
    unfold dayNumber; rw [hy, hm, hd]
  unfold toSec
  rw [hdn]
  omega

/-- C7: the session block key function assigns exactly one key to every
timestamp; two instants sharing a key are always less than five hours and
one minute apart (so records five hours one minute or more apart never
share a block), and two records four hours fifty-nine minutes apart on the
same UTC day can share a block. -/
theorem C7_session_block_partition :
    (∀ t : DT, ∃! k : String, getSessionBlockKey t = k) ∧
    (∀ t1 t2 : DT, t1.Valid → t2.Valid →
      (18060 ≤ (toSec t1 : Int) - (toSec t2 : Int) ∨
       18060 ≤ (toSec t2 : Int) - (toSec t1 : Int)) →
      getSessionBlockKey t1 ≠ getSessionBlockKey t2) ∧
    (DT.Valid ⟨2024, 1, 1, 0, 0, 0⟩ ∧ DT.Valid ⟨2024, 1, 1, 4, 59, 0⟩ ∧
      (toSec (⟨2024, 1, 1, 4, 59, 0⟩ : DT) : Int) -
        (toSec (⟨2024, 1, 1, 0, 0, 0⟩ : DT) : Int) = 17940 ∧
      getSessionBlockKey ⟨2024, 1, 1, 0, 0, 0⟩ =
        getSessionBlockKey ⟨2024, 1, 1, 4, 59, 0⟩) := by
  refine ⟨fun t => ⟨getSessionBlockKey t, rfl, fun y hy => hy.symm⟩, ?_, ?_⟩
  · intro t1 t2 h1 h2 hfar heq
    have := sessionKey_close h1 h2 heq
    omega
  · exact ⟨by decide, by decide, by decide, by decide⟩

/-- C7, witness: two valid instants exactly five hours one minute apart on
the same day have different block keys. -/
theorem C7_witness :
    getSessionBlockKey ⟨2024, 1, 1, 1, 0, 0⟩ ≠
      getSessionBlockKey ⟨2024, 1, 1, 6, 1, 0⟩ :=
  C7_session_block_partition.2.1 ⟨2024, 1, 1, 1, 0, 0⟩ ⟨2024, 1, 1, 6, 1, 0⟩
    (by decide) (by decide) (Or.inr (by decide))

/-! ### C4: the record parser -/

theorem parseLine_some_shape {j : Json} {p : String} {raw : RawLogEntry}
    {msg : MessageData} {u : UsageData} {model ts : String} {t : DT}
    (hd : decodeRawLogEntry j = some raw)
    (het : raw.entry_type = some "assistant")
    (hm : raw.message = some msg)
    (hr : msg.role = some "assistant")
    (hu : msg.usage = some u)
    (hmo : msg.model = some model)
    (hts : raw.timestamp = some ts)
    (hpt : parseRFC3339 ts = some t) :
    parseLine j p = some
      ⟨t, raw.session_id.getD "", model, u.input_tokens.getD 0,
       u.output_tokens.getD 0, u.cache_creation_input_tokens.getD 0,
       u.cache_read_input_tokens.getD 0, raw.uuid.getD "", p⟩ := by
  unfold parseLine
  rw [hd]
  dsimp only
  rw [if_neg (by simp [het]), hm]
  dsimp only
  rw [if_neg (by simp [hr]), hu]
  dsimp only
  rw [hmo]
  dsimp only
  rw [hts]
  dsimp only
  rw [hpt]

theorem parseLine_isSome_shape {j : Json} {p : String}
    (h : (parseLine j p).isSome) :
    ∃ raw, decodeRawLogEntry j = some raw ∧
      raw.entry_type = some "assistant" ∧
      ∃ msg, raw.message = some msg ∧ msg.role = some "assistant" ∧
        msg.usage.isSome = true ∧ msg.model.isSome = true ∧
        ∃ ts, raw.timestamp = some ts ∧ (parseRFC3339 ts).isSome = true := by
  unfold parseLine at h
  cases hd : decodeRawLogEntry j with
  | none => rw [hd] at h; simp at h
  | some raw =>
    rw [hd] at h
    dsimp only at h
    by_cases het : raw.entry_type ≠ some "assistant"
    · rw [if_pos het] at h; simp at h
    · rw [if_neg het] at h
      push_neg at het
      cases hm : raw.message with
      | none => rw [hm] at h; simp at h
      | some msg =>
        rw [hm] at h
        dsimp only at h
        by_cases hr : msg.role ≠ some "assistant"
        · rw [if_pos hr] at h; simp at h
        · rw [if_neg hr] at h
          push_neg at hr
          cases hu : msg.usage with
          | none => rw [hu] at h; simp at h
          | some u =>
            rw [hu] at h
            dsimp only at h
            cases hmo : msg.model with
            | none => rw [hmo] at h; simp at h
            | some model =>
              rw [hmo] at h
              dsimp only at h
              cases hts : raw.timestamp with
              | none => rw [hts] at h; simp at h
              | some ts =>
                rw [hts] at h
                dsimp only at h
                cases hpt : parseRFC3339 ts with
                | none => rw [hpt] at h; simp at h
                | some t =>
                  exact ⟨raw, rfl, het, msg, hm, hr, by rw [hu]; rfl,
                    by rw [hmo]; rfl, ts, hts, by rw [hpt]; rfl⟩

/-- C4, counterexample: a line satisfying every condition the claim lists
(valid JSON, top-level type assistant, message role assistant, usage object
present, model string present, parseable RFC3339 timestamp) is still
rejected, because its uuid field holds a number and the serde decode of the
whole raw entry fails; so the listed conditions are not sufficient. -/
theorem C4_counterexample :
    c4Json = Json.obj c4Fields ∧
    jsonLookup c4Fields "type" = some (Json.str "assistant") ∧
    jsonLookup c4Fields "message" = some (Json.obj c4MsgFields) ∧
    jsonLookup c4MsgFields "role" = some (Json.str "assistant") ∧
    jsonLookup c4MsgFields "model" = some (Json.str "claude-sonnet-4") ∧
    jsonLookup c4MsgFields "usage" = some (Json.obj []) ∧
    jsonLookup c4Fields "timestamp" =
      some (Json.str "2024-01-10T11:55:00Z") ∧
    (parseRFC3339 "2024-01-10T11:55:00Z").isSome = true ∧
    parseLine c4Json "p" = none :=
  ⟨rfl, rfl, rfl, rfl, rfl, rfl, rfl, rfl, rfl⟩

/-- C4 (amended): parse_line returns Some if and only if the line decodes
into the raw log entry shape (every declared field that is present and
non-null must have its declared type, e.g. a numeric uuid rejects the
line), the top-level type field is assistant, the nested message role is
assistant, a usage object is present, a model string is present, and a
parseable RFC3339 timestamp is present; missing numeric token sub-fields
default to 0 rather than causing rejection, and no error is ever surfaced
(the function is total into Option). -/
theorem C4_parse_line_contract (j : Json) (p : String) :
    ((parseLine j p).isSome = true ↔
      ∃ raw, decodeRawLogEntry j = some raw ∧
        raw.entry_type = some "assistant" ∧
        ∃ msg, raw.message = some msg ∧ msg.role = some "assistant" ∧
          msg.usage.isSome = true ∧ msg.model.isSome = true ∧
          ∃ ts, raw.timestamp = some ts ∧ (parseRFC3339 ts).isSome = true) ∧
    (∀ (raw : RawLogEntry) (msg : MessageData) (u : UsageData) (e : UsageEntry),
      decodeRawLogEntry j = some raw → raw.message = some msg →
      msg.usage = some u → parseLine j p = some e →
      e.input_tokens = u.input_tokens.getD 0 ∧
      e.output_tokens = u.output_tokens.getD 0 ∧
      e.cache_creation_tokens = u.cache_creation_input_tokens.getD 0 ∧
      e.cache_read_tokens = u.cache_read_input_tokens.getD 0 ∧
      e.project = p) := by
  constructor
  · constructor
    · exact fun h => parseLine_isSome_shape h
    · rintro ⟨raw, hd, het, msg, hm, hr, hu, hmo, ts, hts, hpt⟩
      obtain ⟨u, hu'⟩ := Option.isSome_iff_exists.mp hu
      obtain ⟨model, hmo'⟩ := Option.isSome_iff_exists.mp hmo
      obtain ⟨t, hpt'⟩ := Option.isSome_iff_exists.mp hpt
      rw [parseLine_some_shape hd het hm hr hu' hmo' hts hpt']
      rfl
  · intro raw msg u e hd hm hu hpe
    have hs : (parseLine j p).isSome = true := by rw [hpe]; rfl
    obtain ⟨raw1, hd1, het1, msg1, hm1, hr1, hu1, hmo1, ts1, hts1, hpt1⟩ :=
      parseLine_isSome_shape hs
    have hraw : raw1 = raw := Option.some.inj (hd1.symm.trans hd)
    rw [hraw] at het1 hm1 hts1
    have hmsg : msg1 = msg := Option.some.inj (hm1.symm.trans hm)
    rw [hmsg] at hr1 hmo1
    obtain ⟨model, hmo'⟩ := Option.isSome_iff_exists.mp hmo1
    obtain ⟨t, hpt'⟩ := Option.isSome_iff_exists.mp hpt1
    have hcomp := @parseLine_some_shape j p raw msg u model ts1 t
      hd het1 hm hr1 hu hmo' hts1 hpt'
    have he := Option.some.inj (hpe.symm.trans hcomp)
    subst he
    exact ⟨rfl, rfl, rfl, rfl, rfl⟩

/-- C4, witness: a line whose usage object is empty parses, with all four
token counts defaulted to 0 and the caller-supplied project recorded. -/
theorem C4_witness :
    (parseLine c4DefJson "p").isSome = true ∧
    (∀ e : UsageEntry, parseLine c4DefJson "p" = some e →
      e.input_tokens = 0 ∧ e.output_tokens = 0 ∧
      e.cache_creation_tokens = 0 ∧ e.cache_read_tokens = 0 ∧
      e.project = "p") :=
  ⟨(C4_parse_line_contract c4DefJson "p").1.mpr
    ⟨⟨some "assistant", some "2024-01-10T11:55:00Z", none,
        some ⟨some "assistant", some "claude-sonnet-4", some ⟨none, none, none, none⟩,
          none⟩, none, none⟩,
      rfl, rfl, ⟨some "assistant", some "claude-sonnet-4",
        some ⟨none, none, none, none⟩, none⟩, rfl, rfl, rfl, rfl,
      "2024-01-10T11:55:00Z", rfl, rfl⟩,
   fun e he =>
    (C4_parse_line_contract c4DefJson "p").2
      ⟨some "assistant", some "2024-01-10T11:55:00Z", none,
        some ⟨some "assistant", some "claude-sonnet-4", some ⟨none, none, none, none⟩,
          none⟩, none, none⟩
      ⟨some "assistant", some "claude-sonnet-4", some ⟨none, none, none, none⟩, none⟩
      ⟨none, none, none, none⟩ e rfl rfl rfl he⟩

/-! ### C1: global deduplication by unique id -/

theorem parseLine_project (j : Json) (p q : String) :
    parseLine j q = (parseLine j p).map (fun e => { e with project := q }) := by
  unfold parseLine
  cases decodeRawLogEntry j with
  | none => rfl
  | some raw =>
    dsimp only
    by_cases h1 : raw.entry_type ≠ some "assistant"
    · rw [if_pos h1, if_pos h1]
      rfl
    · rw [if_neg h1, if_neg h1]
      cases raw.message with
      | none => rfl
      | some message =>
        dsimp only
        by_cases h2 : message.role ≠ some "assistant"
        · rw [if_pos h2, if_pos h2]
          rfl
        · rw [if_neg h2, if_neg h2]
          cases message.usage with
          | none => rfl
          | some usage =>
            dsimp only
            cases message.model with
            | none => rfl
            | some model =>
              dsimp only
              cases raw.timestamp with
              | none => rfl
              | some ts =>
                dsimp only
                cases parseRFC3339 ts with
                | none => rfl
                | some t => rfl

theorem produces_project (c : Option Int) (p q : String) (ml : Option Json) :
    produces c (p, ml) = (produces c (q, ml)).map (fun e => { e with project := p }) := by
  cases ml with
  | none => rfl
  | some j =>
    unfold produces
    dsimp only
    rw [parseLine_project j q p]
    cases parseLine j q with
    | none => rfl
    | some e =>
      dsimp only [Option.map]
      by_cases hpass : passesCutoff c e = true
      · rw [if_pos hpass, if_pos (show passesCutoff c { e with project := p } = true
          from hpass)]
      · rw [if_neg hpass, if_neg (show ¬passesCutoff c { e with project := p } = true
          from hpass)]

theorem mem_seen_dedupStep (c : Option Int) (x : String × Option Json)
    {st : List String × List UsageEntry} {u : String} (h : u ∈ st.1) :
    u ∈ (dedupStep c st x).1 := by
  unfold dedupStep
  cases produces c x with
  | none => exact h
  | some e =>
    dsimp only
    by_cases h1 : e.uuid = ""
    · rw [if_pos h1]; exact h
    · rw [if_neg h1]
      by_cases h2 : e.uuid ∈ st.1
      · rw [if_pos h2]; exact h
      · rw [if_neg h2]; exact List.mem_cons_of_mem _ h

theorem foldl_seen_mono (c : Option Int) :
    ∀ (stream : List (String × Option Json)) (st : List String × List UsageEntry)
      (u : String), u ∈ st.1 → u ∈ (stream.foldl (dedupStep c) st).1 := by
  intro stream
  induction stream with
  | nil => intro st u h; exact h
  | cons x rest ih =>
    intro st u h
    rw [List.foldl_cons]
    exact ih _ u (mem_seen_dedupStep c x h)

theorem seen_of_produces (c : Option Int) :
    ∀ (stream : List (String × Option Json)) (st : List String × List UsageEntry)
      (x : String × Option Json) (e : UsageEntry),
      x ∈ stream → produces c x = some e → e.uuid ≠ "" →
      e.uuid ∈ (stream.foldl (dedupStep c) st).1 := by
  intro stream
  induction stream with
  | nil => intro st x e hx; exact absurd hx (List.not_mem_nil x)
  | cons y rest ih =>
    intro st x e hx hp hne
    rw [List.foldl_cons]
    rcases List.mem_cons.mp hx with hxy | hxr
    · subst hxy
      apply foldl_seen_mono
      unfold dedupStep
      rw [hp]
      dsimp only
      rw [if_neg hne]
      by_cases h2 : e.uuid ∈ st.1
      · rw [if_pos h2]; exact h2
      · rw [if_neg h2]; exact List.mem_cons_self _ _
    · exact ih _ x e hxr hp hne

theorem dedupStep_skip {c : Option Int} {x : String × Option Json}
    {e : UsageEntry} {st : List String × List UsageEntry}
    (hp : produces c x = some e) (hne : e.uuid ≠ "") (hmem : e.uuid ∈ st.1) :
    dedupStep c st x = st := by
  unfold dedupStep
  rw [hp]
  dsimp only
  rw [if_neg hne, if_pos hmem]

theorem dedupStep_inv (c : Option Int) (x : String × Option Json)
    {st : List String × List UsageEntry}
    (h1 : ∀ u ∈ st.1, ∃ e ∈ st.2, e.uuid = u)
    (h2 : ∀ e ∈ st.2, e.uuid ≠ "" → e.uuid ∈ st.1)
    (h3 : st.2.Pairwise (fun a b => a.uuid = "" ∨ b.uuid = "" ∨ a.uuid ≠ b.uuid)) :
    (∀ u ∈ (dedupStep c st x).1, ∃ e ∈ (dedupStep c st x).2, e.uuid = u) ∧
    (∀ e ∈ (dedupStep c st x).2, e.uuid ≠ "" → e.uuid ∈ (dedupStep c st x).1) ∧
    (dedupStep c st x).2.Pairwise
      (fun a b => a.uuid = "" ∨ b.uuid = "" ∨ a.uuid ≠ b.uuid) := by
  unfold dedupStep
  cases hp : produces c x with
  | none => exact ⟨h1, h2, h3⟩
  | some e =>
    dsimp only
    by_cases he : e.uuid = ""
    · rw [if_pos he]
      refine ⟨?_, ?_, ?_⟩
      · intro u hu
        obtain ⟨e1, he1, heq⟩ := h1 u hu
        exact ⟨e1, List.mem_append_left _ he1, heq⟩
      · intro e1 he1 hne1
        rcases List.mem_append.mp he1 with hin | hin
        · exact h2 e1 hin hne1
        · simp at hin
          subst hin
          exact absurd he hne1
      · rw [List.pairwise_append]
        refine ⟨h3, List.pairwise_singleton _ _, ?_⟩
        intro a _ b hb
        simp at hb
        subst hb
        exact Or.inr (Or.inl he)
    · rw [if_neg he]
      by_cases hm : e.uuid ∈ st.1
      · rw [if_pos hm]
        exact ⟨h1, h2, h3⟩
      · rw [if_neg hm]
        refine ⟨?_, ?_, ?_⟩
        · intro u hu
          rcases List.mem_cons.mp hu with huu | huu
          · exact ⟨e, List.mem_append_right _ (List.mem_singleton.mpr rfl), huu.symm⟩
          · obtain ⟨e1, he1, heq⟩ := h1 u huu
            exact ⟨e1, List.mem_append_left _ he1, heq⟩
        · intro e1 he1 hne1
          rcases List.mem_append.mp he1 with hin | hin
          · exact List.mem_cons_of_mem _ (h2 e1 hin hne1)
          · simp at hin
            subst hin
            exact List.mem_cons_self _ _
        · rw [List.pairwise_append]
          refine ⟨h3, List.pairwise_singleton _ _, ?_⟩
          intro a ha b hb
          simp at hb
          subst hb
          by_cases ha0 : a.uuid = ""
          · exact Or.inl ha0
          · refine Or.inr (Or.inr ?_)
            intro heq
            exact hm (heq ▸ h2 a ha ha0)

theorem foldl_dedup_inv (c : Option Int) :
    ∀ (stream : List (String × Option Json)) (st : List String × List UsageEntry),
      (∀ u ∈ st.1, ∃ e ∈ st.2, e.uuid = u) →
      (∀ e ∈ st.2, e.uuid ≠ "" → e.uuid ∈ st.1) →
      st.2.Pairwise (fun a b => a.uuid = "" ∨ b.uuid = "" ∨ a.uuid ≠ b.uuid) →
      (∀ u ∈ (stream.foldl (dedupStep c) st).1,
        ∃ e ∈ (stream.foldl (dedupStep c) st).2, e.uuid = u) ∧
      (∀ e ∈ (stream.foldl (dedupStep c) st).2, e.uuid ≠ "" →
        e.uuid ∈ (stream.foldl (dedupStep c) st).1) ∧
      (stream.foldl (dedupStep c) st).2.Pairwise
        (fun a b => a.uuid = "" ∨ b.uuid = "" ∨ a.uuid ≠ b.uuid) := by
  intro stream
  induction stream with
  | nil => intro st h1 h2 h3; exact ⟨h1, h2, h3⟩
  | cons x rest ih =>
    intro st h1 h2 h3
    obtain ⟨g1, g2, g3⟩ := dedupStep_inv c x h1 h2 h3
    exact ih (dedupStep c st x) g1 g2 g3

theorem foldl_dedup_filter_empty (c : Option Int) :
    ∀ (stream : List (String × Option Json)) (st : List String × List UsageEntry),
      ((stream.foldl (dedupStep c) st).2.filter (fun e => e.uuid = "")) =
        st.2.filter (fun e => e.uuid = "") ++
          ((stream.filterMap (produces c)).filter (fun e => e.uuid = "")) := by
  intro stream
  induction stream with
  | nil => intro st; simp
  | cons x rest ih =>
    intro st
    rw [List.foldl_cons, ih (dedupStep c st x), List.filterMap_cons]
    cases hp : produces c x with
    | none =>
      unfold dedupStep
      rw [hp]
    | some e =>
      unfold dedupStep
      rw [hp]
      dsimp only
      by_cases he : e.uuid = ""
      · rw [if_pos he]
        dsimp only
        rw [List.filter_append]
        simp [he]
      · rw [if_neg he]
        by_cases hm : e.uuid ∈ st.1
        · rw [if_pos hm]
          simp [he]
        · rw [if_neg hm]
          dsimp only
          rw [List.filter_append]
          simp [he]

theorem streamOf_append_cons (A B : List LogFile) (f : LogFile) :
    streamOf (A ++ f :: B) =
      streamOf A ++ (f.2.map (fun l => (f.1, l)) ++ streamOf B) := by
  simp [streamOf, List.map_append]

theorem produces_of_parseLine {c : Option Int} {q0 : String} {l : Json}
    {e : UsageEntry} (hp : produces c (q0, some l) = some e) :
    parseLine l q0 = some e := by
  unfold produces at hp
  dsimp only at hp
  cases hpl : parseLine l q0 with
  | none => rw [hpl] at hp; simp at hp
  | some e1 =>
    rw [hpl] at hp
    dsimp only at hp
    by_cases hpass : passesCutoff c e1 = true
    · rw [if_pos hpass] at hp
      exact hp
    · rw [if_neg hpass] at hp
      simp at hp

theorem foldl_dedup_dup {c : Option Int} {P Q : List (String × Option Json)}
    {q0 p0 : String} {l : Json} (hocc : (p0, some l) ∈ P)
    (hu : ∀ e, parseLine l q0 = some e → e.uuid ≠ "") :
    (P ++ (q0, some l) :: Q).foldl (dedupStep c) ([], []) =
      (P ++ Q).foldl (dedupStep c) ([], []) := by
  rw [List.foldl_append, List.foldl_append, List.foldl_cons]
  congr 1
  cases hp : produces c (q0, some l) with
  | none =>
    unfold dedupStep
    rw [hp]
  | some e =>
    have hple := produces_of_parseLine hp
    have hne : e.uuid ≠ "" := hu e hple
    have hpp : produces c (p0, some l) = some { e with project := p0 } := by
      rw [produces_project c p0 q0 (some l), hp]
      rfl
    have hseen : e.uuid ∈ (P.foldl (dedupStep c) ([], [])).1 :=
      seen_of_produces c P ([], []) (p0, some l) { e with project := p0 }
        hocc hpp hne
    exact dedupStep_skip hp hne hseen

/-- C1: in one read_entries pass the output never contains two records with
the same non-empty uuid (the seen set is shared across all files); records
with an empty uuid are all kept with multiplicity; every produced uuid is
represented in the output; and duplicating one line with a non-empty uuid,
later in the same file or in any later file, leaves the output sequence and
hence the computed aggregate stats unchanged. -/
theorem C1_dedup_stream (files : List LogFile) (days : Option Nat) (now : DT) :
    (readEntries files days now).Pairwise
      (fun a b => a.uuid = "" ∨ b.uuid = "" ∨ a.uuid ≠ b.uuid) ∧
    ((readEntries files days now).filter (fun e => e.uuid = "")).Perm
      (((streamOf files).filterMap (produces (cutoffOf days now))).filter
        (fun e => e.uuid = "")) ∧
    (∀ x ∈ streamOf files, ∀ e : UsageEntry,
      produces (cutoffOf days now) x = some e →
      ∃ e1 ∈ readEntries files days now, e1.uuid = e.uuid) ∧
    (∀ (pre post : List LogFile) (p : String) (xs ys : List (Option Json))
        (l : Json), some l ∈ xs →
      (∀ e : UsageEntry, parseLine l p = some e → e.uuid ≠ "") →
      readEntries (pre ++ (p, xs ++ some l :: ys) :: post) days now =
        readEntries (pre ++ (p, xs ++ ys) :: post) days now ∧
      calculateStats
          (readEntries (pre ++ (p, xs ++ some l :: ys) :: post) days now) now =
        calculateStats
          (readEntries (pre ++ (p, xs ++ ys) :: post) days now) now) ∧
    (∀ (pre mid post : List LogFile) (p q : String) (xs us vs : List (Option Json))
        (l : Json), some l ∈ xs →
      (∀ e : UsageEntry, parseLine l q = some e → e.uuid ≠ "") →
      readEntries (pre ++ (p, xs) :: mid ++ (q, us ++ some l :: vs) :: post)
          days now =
        readEntries (pre ++ (p, xs) :: mid ++ (q, us ++ vs) :: post) days now) := by
  have hsym : Symmetric
      (fun a b : UsageEntry => a.uuid = "" ∨ b.uuid = "" ∨ a.uuid ≠ b.uuid) := by
    intro a b h
    rcases h with h | h | h
    · exact Or.inr (Or.inl h)
    · exact Or.inl h
    · exact Or.inr (Or.inr (Ne.symm h))
  obtain ⟨inv1, inv2, inv3⟩ := foldl_dedup_inv (cutoffOf days now)
    (streamOf files) ([], []) (by simp) (by simp) List.Pairwise.nil
  refine ⟨?_, ?_, ?_, ?_, ?_⟩
  · unfold readEntries
    exact (List.Perm.pairwise_iff (fun {x y} hxy => hsym hxy)
      (List.perm_insertionSort tsLE _)).mpr inv3
  · unfold readEntries
    refine ((List.perm_insertionSort tsLE _).filter _).trans ?_
    rw [foldl_dedup_filter_empty (cutoffOf days now) (streamOf files) ([], [])]
    simp
  · intro x hx e hpe
    by_cases hne : e.uuid = ""
    · have hmem : e ∈ ((streamOf files).filterMap
          (produces (cutoffOf days now))).filter (fun e => e.uuid = "") := by
        rw [List.mem_filter]
        exact ⟨List.mem_filterMap.mpr ⟨x, hx, hpe⟩, by simpa using hne⟩
      have : e ∈ ((streamOf files).foldl (dedupStep (cutoffOf days now))
          ([], [])).2.filter (fun e => e.uuid = "") := by
        rw [foldl_dedup_filter_empty (cutoffOf days now) (streamOf files) ([], [])]
        simpa using hmem
      refine ⟨e, ?_, rfl⟩
      unfold readEntries
      rw [List.mem_insertionSort]
      exact List.mem_of_mem_filter this
    · have hseen := seen_of_produces (cutoffOf days now) (streamOf files)
        ([], []) x e hx hpe hne
      obtain ⟨e1, he1, heq⟩ := inv1 e.uuid hseen
      refine ⟨e1, ?_, heq⟩
      unfold readEntries
      rw [List.mem_insertionSort]
      exact he1
  · intro pre post p xs ys l hmem hu
    have h1 : streamOf (pre ++ (p, xs ++ some l :: ys) :: post) =
        (streamOf pre ++ xs.map (fun ml => (p, ml))) ++
          (p, some l) :: (ys.map (fun ml => (p, ml)) ++ streamOf post) := by
      rw [streamOf_append_cons]
      simp [List.map_append]
    have h2 : streamOf (pre ++ (p, xs ++ ys) :: post) =
        (streamOf pre ++ xs.map (fun ml => (p, ml))) ++
          (ys.map (fun ml => (p, ml)) ++ streamOf post) := by
      rw [streamOf_append_cons]
      simp [List.map_append]
    have hocc : (p, some l) ∈ streamOf pre ++ xs.map (fun ml => (p, ml)) :=
      List.mem_append_right _ (List.mem_map.mpr ⟨some l, hmem, rfl⟩)
    have heq : readEntries (pre ++ (p, xs ++ some l :: ys) :: post) days now =
        readEntries (pre ++ (p, xs ++ ys) :: post) days now := by
      unfold readEntries
      rw [h1, h2, foldl_dedup_dup hocc hu]
    exact ⟨heq, congrArg (fun es => calculateStats es now) heq⟩
  · intro pre mid post p q xs us vs l hmem hu
    have h1 : streamOf (pre ++ (p, xs) :: mid ++ (q, us ++ some l :: vs) :: post) =
        (streamOf pre ++ (xs.map (fun ml => (p, ml)) ++
          (streamOf mid ++ us.map (fun ml => (q, ml))))) ++
          (q, some l) :: (vs.map (fun ml => (q, ml)) ++ streamOf post) := by
      rw [show pre ++ (p, xs) :: mid ++ (q, us ++ some l :: vs) :: post =
        pre ++ (p, xs) :: (mid ++ (q, us ++ some l :: vs) :: post) from by simp,
        streamOf_append_cons, streamOf_append_cons]
      simp [List.map_append]
    have h2 : streamOf (pre ++ (p, xs) :: mid ++ (q, us ++ vs) :: post) =
        (streamOf pre ++ (xs.map (fun ml => (p, ml)) ++
          (streamOf mid ++ us.map (fun ml => (q, ml))))) ++
          (vs.map (fun ml => (q, ml)) ++ streamOf post) := by
      rw [show pre ++ (p, xs) :: mid ++ (q, us ++ vs) :: post =
        pre ++ (p, xs) :: (mid ++ (q, us ++ vs) :: post) from by simp,
        streamOf_append_cons, streamOf_append_cons]
      simp [List.map_append]
    have hocc : (p, some l) ∈ streamOf pre ++ (xs.map (fun ml => (p, ml)) ++
        (streamOf mid ++ us.map (fun ml => (q, ml)))) :=
      List.mem_append_right _ (List.mem_append_left _
        (List.mem_map.mpr ⟨some l, hmem, rfl⟩))
    unfold readEntries
    rw [h1, h2, foldl_dedup_dup hocc hu]

/-- C1, witness: duplicating the well formed line inside one file, and
again in a second file, leaves the read sequence unchanged. -/
theorem C1_witness :
    readEntries ([] ++ ("p", [some c8Json] ++ some c8Json :: []) :: [])
        none c3Now =
      readEntries ([] ++ ("p", [some c8Json] ++ []) :: []) none c3Now ∧
    readEntries ([] ++ ("p", [some c8Json]) :: [] ++
        ("q", [] ++ some c8Json :: []) :: []) none c3Now =
      readEntries ([] ++ ("p", [some c8Json]) :: [] ++ ("q", [] ++ []) :: [])
        none c3Now ∧
    (∃ e1 ∈ readEntries [("p", [some c8Json])] none c3Now,
      e1.uuid = c8Entry.uuid) :=
  ⟨((C1_dedup_stream ([] ++ ("p", [some c8Json] ++ some c8Json :: []) :: [])
      none c3Now).2.2.2.1 [] [] "p" [some c8Json] [] c8Json
      (List.mem_singleton.mpr rfl)
      (fun e he => by
        have h := Option.some.inj (show some c8Entry = some e from he)
        rw [← h]
        decide)).1,
   (C1_dedup_stream ([] ++ ("p", [some c8Json]) :: [] ++
      ("q", [] ++ some c8Json :: []) :: []) none c3Now).2.2.2.2 [] [] []
      "p" "q" [some c8Json] [] [] c8Json (List.mem_singleton.mpr rfl)
      (fun e he => by
        have h := Option.some.inj
          (show some { c8Entry with project := "q" } = some e from he)
        rw [← h]
        decide),
   (C1_dedup_stream [("p", [some c8Json])] none c3Now).2.2.1
      ("p", some c8Json) (by simp [streamOf]) c8Entry rfl⟩

/-! ### C8: entry stream ordering and age cutoff -/

theorem mem_dedupStep {c : Option Int} {st : List String × List UsageEntry}
    {x : String × Option Json} {e : UsageEntry}
    (h : e ∈ (dedupStep c st x).2) : e ∈ st.2 ∨ produces c x = some e := by
  unfold dedupStep at h
  cases hp : produces c x with
  | none => rw [hp] at h; exact Or.inl h
  | some e1 =>
    rw [hp] at h
    dsimp only at h
    by_cases h1 : e1.uuid = ""
    · rw [if_pos h1] at h
      rcases List.mem_append.mp h with h2 | h2
      · exact Or.inl h2
      · simp at h2
        subst h2
        exact Or.inr rfl
    · rw [if_neg h1] at h
      by_cases h2 : e1.uuid ∈ st.1
      · rw [if_pos h2] at h
        exact Or.inl h
      · rw [if_neg h2] at h
        rcases List.mem_append.mp h with h3 | h3
        · exact Or.inl h3
        · simp at h3
          subst h3
          exact Or.inr rfl

theorem mem_foldl_dedup {c : Option Int} :
    ∀ (stream : List (String × Option Json)) (st : List String × List UsageEntry)
      (e : UsageEntry), e ∈ (stream.foldl (dedupStep c) st).2 →
      e ∈ st.2 ∨ ∃ x ∈ stream, produces c x = some e := by
  intro stream
  induction stream with
  | nil => intro st e h; exact Or.inl h
  | cons x rest ih =>
    intro st e h
    rw [List.foldl_cons] at h
    rcases ih (dedupStep c st x) e h with h1 | ⟨y, hy, hpy⟩
    · rcases mem_dedupStep h1 with h2 | h2
      · exact Or.inl h2
      · exact Or.inr ⟨x, List.mem_cons_self x rest, h2⟩
    · exact Or.inr ⟨y, List.mem_cons_of_mem x hy, hpy⟩

theorem produces_passes {c : Option Int} {x : String × Option Json}
    {e : UsageEntry} (h : produces c x = some e) : passesCutoff c e = true := by
  obtain ⟨p, ml⟩ := x
  unfold produces at h
  cases ml with
  | none => simp at h
  | some j =>
    dsimp only at h
    cases hpl : parseLine j p with
    | none => rw [hpl] at h; simp at h
    | some e1 =>
      rw [hpl] at h
      dsimp only at h
      by_cases hp : passesCutoff c e1 = true
      · rw [if_pos hp] at h
        cases h
        exact hp
      · rw [if_neg (by simpa using hp)] at h
        simp at h


/-- C8: read_entries returns a sequence sorted ascending by timestamp, and
when a day window d is given no returned record has a timestamp earlier
than now minus d days. -/
theorem C8_read_entries (files : List LogFile) (days : Option Nat) (now : DT) :
    List.Sorted tsLE (readEntries files days now) ∧
    (∀ (d : Nat) (e : UsageEntry), e ∈ readEntries files (some d) now →
      (toSec now : Int) - 86400 * d ≤ (toSec e.timestamp : Int)) := by
  constructor
  · exact List.sorted_insertionSort tsLE _
  · intro d e he
    unfold readEntries at he
    rw [List.mem_insertionSort] at he
    rcases mem_foldl_dedup _ _ _ he with h0 | ⟨x, _, hpx⟩
    · exact absurd h0 (List.not_mem_nil e)
    · have hpass := produces_passes hpx
      unfold passesCutoff at hpass
      have hc : cutoffOf (some d) now =
          some ((toSec now : Int) - 86400 * d) := rfl
      rw [hc] at hpass
      dsimp only at hpass
      by_cases hlt : (toSec e.timestamp : Int) < (toSec now : Int) - 86400 * d
      · rw [if_pos hlt] at hpass
        exact absurd hpass (by simp)
      · omega

/-- C8, witness: a one file scan with a fresh record and a ten day old
record under a one day window keeps only the fresh record, sorted, and its
timestamp is within the window. -/
theorem C8_witness :
    (toSec c3Now : Int) - 86400 * 1 ≤ (toSec c8Entry.timestamp : Int) ∧
    readEntries [("p", [some c8OldJson, some c8Json])] (some 1) c3Now =
      [c8Entry] :=
  ⟨(C8_read_entries [("p", [some c8OldJson, some c8Json])] (some 1) c3Now).2
      1 c8Entry (by decide),
   by decide⟩

/-! ### C9: chart sort order -/

/-- C9: for every entry list, the daily slice of the chart data is sorted
non-decreasing by its date string, the hourly slice ascending by hour, and
the model and project slices non-increasing by token count. -/
theorem C9_chart_sort_order (entries : List UsageEntry) :
    List.Sorted dailyLE (getChartData entries).daily ∧
    List.Sorted hourlyLE (getChartData entries).hourly ∧
    List.Sorted modelDesc (getChartData entries).by_model ∧
    List.Sorted projectDesc (getChartData entries).by_project :=
  ⟨List.sorted_insertionSort dailyLE _, List.sorted_insertionSort hourlyLE _,
   List.sorted_insertionSort modelDesc _, List.sorted_insertionSort projectDesc _⟩

end Claudit
